import Mathlib

/-!
# Verification of the kryon Rust UI-compiler pipeline

Shallow embedding of the kryon repository's core components:

* `src/bindings/rust/kryon-macros/src/reactive.rs` — the reactive expression
  analyzer (`SignalVisitor`, `analyze_reactive_expr`, `is_reactive_expr`);
* `src/bindings/rust/kryon-macros/src/codegen.rs` — the code generator
  (`generate_code`, `generate_component`, `component_type_to_builder`,
  `to_snake_case`, `is_initial_content_property`, `get_initial_content`);
* `src/bindings/rust/kryon-macros/src/parser.rs` — the declarative block
  syntax (`ComponentBlock::parse`, `Property::parse`, `Child::parse`);
* `src/bindings/rust/kryon-core/src/dimension.rs` — the `Dimension` scalar
  type with its `Display` and `From<&str>` conversions;
* `src/bindings/rust/kryon-core/src/ir.rs` — the IR document schema and its
  JSON serialization;
* `src/bindings/rust/kryon/src/reactive.rs` — the `Signal` runtime.

Rust syntax trees (`syn::Expr`), token streams (`proc_macro2`) and JSON
values are modelled as inductive types; because Lean 4.14 handles recursion
through `List` poorly, recursive lists are hand-rolled as mutual inductives.
`f32` payloads are modelled as exact rationals (finite floats round-trip
exactly through the JSON value level; non-finite floats are out of scope).
-/

/-! ## Model of `syn::Expr` (the fragment the analyzer distinguishes)

The reactive analyzer in `reactive.rs` only inspects two shapes specially:
method calls (`ExprMethodCall`) and paths (`ExprPath`); everything else is
traversed generically by `syn::visit`.  The model keeps the common
expression shapes so that receivers can be non-path expressions. -/

mutual

inductive SynExpr where
  | lit (s : String)
  | path (segments : List String)
  | methodCall (receiver : SynExpr) (method : String) (args : SynExprList)
  | call (callee : SynExpr) (args : SynExprList)
  | field (base : SynExpr) (name : String)
  | binary (op : String) (lhs rhs : SynExpr)
  | paren (inner : SynExpr)
deriving DecidableEq

inductive SynExprList where
  | nil
  | cons (e : SynExpr) (rest : SynExprList)
deriving DecidableEq

end

/-- Rust `syn::Path::get_ident`: a path is a bare identifier exactly when it has a
single segment (the model omits leading colons and generic arguments, which
make `get_ident` return `None` just like a multi-segment path). -/
def pathGetIdent : List String → Option String
  | [x] => some x
  | _ => none

/-- Rust `ReactiveInfo` from `reactive.rs`: signal variables referenced (insertion
order, deduplicated) and whether any `.get()` call was seen. -/
structure ReactiveInfo where
  signal_vars : List String
  has_get_calls : Bool
deriving DecidableEq, Repr

/-! `SignalVisitor`: on every method call named `get` it sets the flag, and
when the receiver is a bare single-segment path it records that identifier
(first-seen order, deduplicated); then it recurses into the receiver and the
arguments (`visit::visit_expr_method_call`).  All other expression shapes are
traversed generically. -/

/-- The body of `SignalVisitor::visit_expr_method_call` before the generic
traversal: the `.get()` check and the receiver inspection. -/
def getCheck (receiver : SynExpr) (method : String) (st : ReactiveInfo) :
    ReactiveInfo :=
  if method == "get" then
    let st := { st with has_get_calls := true }
    match receiver with
    | .path segments =>
      match pathGetIdent segments with
      | some x =>
        if st.signal_vars.contains x then st
        else { st with signal_vars := st.signal_vars ++ [x] }
      | none => st
    | _ => st
  else st

mutual

def visitExpr : SynExpr → ReactiveInfo → ReactiveInfo
  | .methodCall receiver method args, st =>
    visitExprList args (visitExpr receiver (getCheck receiver method st))
  | .call callee args, st => visitExprList args (visitExpr callee st)
  | .field base _, st => visitExpr base st
  | .binary _ lhs rhs, st => visitExpr rhs (visitExpr lhs st)
  | .paren inner, st => visitExpr inner st
  | .path _, st => st
  | .lit _, st => st

def visitExprList : SynExprList → ReactiveInfo → ReactiveInfo
  | .nil, st => st
  | .cons e rest, st => visitExprList rest (visitExpr e st)

end

/-- Rust `analyze_reactive_expr` from `reactive.rs`. -/
def analyze_reactive_expr (e : SynExpr) : ReactiveInfo :=
  visitExpr e { signal_vars := [], has_get_calls := false }

/-- Rust `is_reactive_expr` from `reactive.rs`. -/
def is_reactive_expr (e : SynExpr) : Bool :=
  let info := analyze_reactive_expr e
  !info.signal_vars.isEmpty || info.has_get_calls

/-! Syntactic predicates used to state the claims about the analyzer. -/

mutual

/-- Does the expression contain a method call named `get`? -/
def hasGet : SynExpr → Bool
  | .methodCall receiver method args =>
    method == "get" || hasGet receiver || hasGetL args
  | .call callee args => hasGet callee || hasGetL args
  | .field base _ => hasGet base
  | .binary _ lhs rhs => hasGet lhs || hasGet rhs
  | .paren inner => hasGet inner
  | .path _ => false
  | .lit _ => false

def hasGetL : SynExprList → Bool
  | .nil => false
  | .cons e rest => hasGet e || hasGetL rest

end

mutual

/-- Every `get` method call in the expression has the bare variable `x` as
its receiver. -/
def allGetsBare (x : String) : SynExpr → Bool
  | .methodCall receiver method args =>
    (!(method == "get") ||
      (match receiver with
       | .path segments => pathGetIdent segments == some x
       | _ => false)) &&
    allGetsBare x receiver && allGetsBareL x args
  | .call callee args => allGetsBare x callee && allGetsBareL x args
  | .field base _ => allGetsBare x base
  | .binary _ lhs rhs => allGetsBare x lhs && allGetsBare x rhs
  | .paren inner => allGetsBare x inner
  | .path _ => true
  | .lit _ => true

def allGetsBareL (x : String) : SynExprList → Bool
  | .nil => true
  | .cons e rest => allGetsBare x e && allGetsBareL x rest

end

mutual

/-- No `get` method call in the expression has a bare single-segment path as
its receiver (the receivers are field accesses, nested calls, multi-segment
paths, and so on). -/
def noBareGet : SynExpr → Bool
  | .methodCall receiver method args =>
    (!(method == "get") ||
      (match receiver with
       | .path segments => (pathGetIdent segments).isNone
       | _ => true)) &&
    noBareGet receiver && noBareGetL args
  | .call callee args => noBareGet callee && noBareGetL args
  | .field base _ => noBareGet base
  | .binary _ lhs rhs => noBareGet lhs && noBareGet rhs
  | .paren inner => noBareGet inner
  | .path _ => true
  | .lit _ => true

def noBareGetL : SynExprList → Bool
  | .nil => true
  | .cons e rest => noBareGet e && noBareGetL rest

end

/-! ## Model of the parsed AST consumed by `codegen.rs`

`parser.rs` produces a `ComponentBlock` (component-type identifier, ordered
properties, ordered children); a child is either a nested block or an opaque
host expression.  Property values are `syn::Expr`, modelled by `SynExpr`. -/

/-- Rust `Property` from `parser.rs`. -/
structure KProperty where
  name : String
  value : SynExpr
deriving DecidableEq

mutual

inductive ComponentBlock where
  | mk (component_type : String) (properties : List KProperty)
      (children : ChildList)

inductive Child where
  | component (c : ComponentBlock)
  | expr (e : SynExpr)

inductive ChildList where
  | nil
  | cons (c : Child) (rest : ChildList)

end

/-! ## Model of `codegen.rs`

`generate_code` emits a token stream; its run-time meaning is a construction
sequence that allocates one `IRComponent` per block.  A generated node is
modelled by what the emitted code determines: the id taken from the shared
counter, the chosen builder function, the optional initial-content argument,
the ordered setter calls, and the ordered children (generated sub-nodes for
nested blocks, the verbatim host expression for opaque children).  The
builder fields irrelevant to the claims are not repeated here.  Host
expressions are opaque values and do not touch the id counter. -/

mutual

inductive GenNode where
  | node (id : Nat) (builderFn : String) (initialArg : Option SynExpr)
      (setters : List (String × SynExpr)) (children : GenChildList)

inductive GenChildList where
  | nil
  | consNode (g : GenNode) (rest : GenChildList)
  | consExpr (e : SynExpr) (rest : GenChildList)

end

def GenNode.id : GenNode → Nat
  | .node i _ _ _ _ => i

def GenNode.builderFn : GenNode → String
  | .node _ b _ _ _ => b

def GenNode.initialArg : GenNode → Option SynExpr
  | .node _ _ a _ _ => a

def GenNode.setters : GenNode → List (String × SynExpr)
  | .node _ _ _ s _ => s

def GenNode.children : GenNode → GenChildList
  | .node _ _ _ _ c => c

/-- Rust `to_snake_case` from `codegen.rs`: on an uppercase character, push an
underscore unless the accumulated result is still empty, then push the
lowercased character; other characters are pushed unchanged.  (`codegen.rs`
uses Rust's Unicode-aware case predicates; the inputs in this development
are ASCII, where `Char.isUpper`/`Char.toLower` agree with them.) -/
def to_snake_case (s : String) : String :=
  String.mk (s.data.foldl
    (fun result c =>
      if c.isUpper then
        (if result.isEmpty then result else result ++ ['_']) ++ [c.toLower]
      else result ++ [c])
    [])

/-- Rust `component_type_to_builder` from `codegen.rs`: the fixed table with the
`to_snake_case` fallback.  (In the Rust source the result is interpolated
into the output as a function identifier; whether that identifier resolves
is decided later by the host compiler.) -/
def component_type_to_builder (name : String) : String :=
  match name with
  | "App" => "container"
  | "Column" => "column"
  | "Row" => "row"
  | "Container" => "container"
  | "Text" => "text"
  | "Button" => "button"
  | _ => to_snake_case name

/-- Rust `is_initial_content_property` from `codegen.rs`. -/
def is_initial_content_property (name : String) : Bool :=
  name == "content" || name == "text" || name == "title"

/-- Rust `get_initial_content` from `codegen.rs` (`Iterator::find_map`: the first
property whose name is an initial-content name). -/
def get_initial_content (properties : List KProperty) : Option SynExpr :=
  properties.findSome? (fun prop =>
    if is_initial_content_property prop.name then some prop.value else none)

/-- The property-setter pass of `generate_component`: `filter_map` skipping
initial-content properties, each remaining property becoming one setter
call `.name(value)` in source order. -/
def property_calls (properties : List KProperty) :
    List (String × SynExpr) :=
  properties.filterMap (fun prop =>
    if is_initial_content_property prop.name then none
    else some (prop.name, prop.value))

mutual

/-- Rust `generate_component` from `codegen.rs`.  The emitted block first runs
`id_counter += 1; let component_id = id_counter;`, then evaluates the
builder chain; each `.child(...)` argument for a nested block repeats the
same scheme with the same shared counter, left to right in source order, and
`.build(component_id)` finally attaches the saved id.  The function maps a
block and the counter value on entry to the constructed node and the counter
value on exit. -/
def generate_component : ComponentBlock → Nat → GenNode × Nat
  | .mk component_type properties children, counter =>
    let component_id := counter + 1
    let (kids, counterOut) := generate_children children component_id
    (.node component_id (component_type_to_builder component_type)
      (get_initial_content properties) (property_calls properties) kids,
     counterOut)

def generate_children : ChildList → Nat → GenChildList × Nat
  | .nil, counter => (.nil, counter)
  | .cons (.component c) rest, counter =>
    let (g, counter1) := generate_component c counter
    let (gs, counter2) := generate_children rest counter1
    (.consNode g gs, counter2)
  | .cons (.expr e) rest, counter =>
    let (gs, counter1) := generate_children rest counter
    (.consExpr e gs, counter1)

end

/-- Rust `generate_code` from `codegen.rs`: `let mut id_counter = 0u32;` then the
root component; the resulting node becomes the root of a fresh
`IRDocument`. -/
def generate_code (c : ComponentBlock) : GenNode :=
  (generate_component c 0).1

mutual

/-- Ids of the generated nodes in pre-order (parent before children,
children in source order); opaque expression children contribute no
generated node. -/
def preorderIds : GenNode → List Nat
  | .node i _ _ _ kids => i :: preorderIdsL kids

def preorderIdsL : GenChildList → List Nat
  | .nil => []
  | .consNode g rest => preorderIds g ++ preorderIdsL rest
  | .consExpr _ rest => preorderIdsL rest

end

mutual

/-- Number of blocks (= generated nodes) in a component tree. -/
def blockCount : ComponentBlock → Nat
  | .mk _ _ children => 1 + blockCountL children

def blockCountL : ChildList → Nat
  | .nil => 0
  | .cons (.component c) rest => blockCount c + blockCountL rest
  | .cons (.expr _) rest => blockCountL rest

end

/-! ## Model of `kryon-core/src/dimension.rs`

`Dimension` carries `f32` payloads; they are modelled as exact rationals.
The decimal printing and parsing below mirror Rust's `Display for f32` and
`f32::from_str` on the plain decimal fragment these claims exercise
(optional sign, digits, optional fraction; Rust's scientific notation and
the non-finite spellings are outside the fragment). -/

inductive Dimension where
  | Px (v : ℚ)
  | Percent (v : ℚ)
  | Auto
  | Flex (v : ℚ)
deriving DecidableEq, Repr

/-- Rust `Dimension::px`. -/
def Dimension.px (value : ℚ) : Dimension := .Px value

/-- Rust `Dimension::percent`. -/
def Dimension.percent (value : ℚ) : Dimension := .Percent value

/-- Rust `Dimension::auto`. -/
def Dimension.auto : Dimension := .Auto

/-- Rust `Dimension::flex`. -/
def Dimension.flex (value : ℚ) : Dimension := .Flex value

/-- Decimal digits of the fractional part `q ∈ [0, 1)`; every `f32` value is
a dyadic rational whose expansion terminates, and the fuel bounds the digit
count the way the float's finite precision does. -/
def fracDigits : Nat → ℚ → String
  | 0, _ => ""
  | fuel + 1, q =>
    if q = 0 then ""
    else
      let q10 := q * 10
      let d : ℤ := ⌊q10⌋
      toString d ++ fracDigits fuel (q10 - (d : ℚ))

/-- Rust `{}` formatting of a (finite) float value: integers print without a
decimal point, other values as `int.frac`. -/
def floatToString (q : ℚ) : String :=
  if q.den = 1 then toString q.num
  else
    let sign := if q < 0 then "-" else ""
    let a := |q|
    sign ++ toString ⌊a⌋ ++ "." ++ fracDigits 200 (a - (⌊a⌋ : ℚ))

/-- Rust `Display for Dimension` from `dimension.rs`. -/
def Dimension.display : Dimension → String
  | .Px v => floatToString v ++ "px"
  | .Percent v => floatToString v ++ "%"
  | .Auto => "auto"
  | .Flex v => floatToString v ++ "fr"

/-- Value of a nonempty all-digit character sequence. -/
def digitsVal (cs : List Char) : Option Nat :=
  if cs = [] then none
  else
    cs.foldl
      (fun acc c =>
        acc.bind (fun n => if c.isDigit then some (n * 10 + (c.toNat - 48)) else none))
      (some 0)

/-- Split a character sequence at every dot (`String::split` on the model
level: `"" → [""]`, `"1.5" → ["1", "5"]`, `"1..2"` → three pieces). -/
def splitAtDot : List Char → List (List Char)
  | [] => [[]]
  | c :: rest =>
    if c = '.' then [] :: splitAtDot rest
    else
      match splitAtDot rest with
      | h :: t => (c :: h) :: t
      | [] => [[c]]

/-- Rust `f32::from_str` on the plain decimal fragment: optional sign, then
`digits`, `digits.digits`, `.digits` or `digits.` (at least one digit in
total). -/
def parseF32 (s : String) : Option ℚ :=
  let (neg, body) :=
    match s.data with
    | '+' :: r => (false, r)
    | '-' :: r => (true, r)
    | cs => (false, cs)
  let value : Option ℚ :=
    match splitAtDot body with
    | [intPart] => (digitsVal intPart).map (fun n => (n : ℚ))
    | [intPart, fracPart] =>
      if intPart = [] ∧ fracPart = [] then none
      else
        let intVal := if intPart = [] then some 0 else digitsVal intPart
        let fracVal := if fracPart = [] then some 0 else digitsVal fracPart
        intVal.bind (fun i =>
          fracVal.map (fun f =>
            (i : ℚ) + (f : ℚ) / ((10 : ℚ) ^ fracPart.length)))
    | _ => none
  value.map (fun v => if neg then -v else v)

/-- Rust `str::strip_suffix`. -/
def stripSuffixOpt (s suffix : String) : Option String :=
  if s.data.reverse.take suffix.data.length = suffix.data.reverse then
    some (String.mk (s.data.take (s.data.length - suffix.data.length)))
  else none

/-- Rust `From<&str> for Dimension` from `dimension.rs`: `"auto"`, then the `px`,
`%`, `fr` suffixes in order (a suffix whose number fails to parse falls
through to the next check), and `Auto` as the default when everything
fails. -/
def dimensionFromString (s : String) : Dimension :=
  if s = "auto" then .Auto
  else
    match (stripSuffixOpt s "px").bind parseF32 with
    | some v => .Px v
    | none =>
      match (stripSuffixOpt s "%").bind parseF32 with
      | some v => .Percent v
      | none =>
        match (stripSuffixOpt s "fr").bind parseF32 with
        | some v => .Flex v
        | none => .Auto

/-! ## Model of `kryon/src/reactive.rs` (`Signal`)

A signal owns a value and an ordered subscriber list
(`Rc<RefCell<T>>` / `Rc<RefCell<Vec<Box<dyn Fn(&T)>>>>`).  Subscriber
callbacks are effects on an external world `σ`; `set`/`update` return the
world as it stands when the call returns, so every effect recorded in it
happened synchronously inside the call. -/

structure Signal (T σ : Type) where
  value : T
  subscribers : List (T → σ → σ)

/-- Rust `Signal::new`. -/
def Signal.new (initial : T) : Signal T σ :=
  { value := initial, subscribers := [] }

/-- Rust `Signal::get` (clones the value). -/
def Signal.get (s : Signal T σ) : T := s.value

/-- Rust `Signal::notify_subscribers`: invoke every subscriber in registration
order with the given value. -/
def Signal.notify_subscribers (s : Signal T σ) (value : T) (w : σ) : σ :=
  s.subscribers.foldl (fun w cb => cb value w) w

/-- Rust `Signal::set`: store the new value, then notify all subscribers with it
before returning. -/
def Signal.set (s : Signal T σ) (new_value : T) (w : σ) : Signal T σ × σ :=
  let s := { s with value := new_value }
  (s, s.notify_subscribers new_value w)

/-- Rust `Signal::update`: mutate the value through the closure, read it back,
then notify all subscribers with the new value before returning. -/
def Signal.update (s : Signal T σ) (f : T → T) (w : σ) : Signal T σ × σ :=
  let s := { s with value := f s.value }
  (s, s.notify_subscribers s.value w)

/-- Rust `Signal::subscribe`: append the callback and return its index. -/
def Signal.subscribe (s : Signal T σ) (callback : T → σ → σ) :
    Signal T σ × Nat :=
  ({ s with subscribers := s.subscribers ++ [callback] },
   s.subscribers.length)

/-- Handle to the heap cell (`Rc<RefCell<U>>`) of a derived signal created
by `Signal::derive`; the world for such signals is a heap `List U` of
derived-value cells and `cell` is the allocated index. -/
structure DerivedSignal (U : Type) where
  cell : Nat

/-- Read the derived signal's current value from the heap. -/
def DerivedSignal.get (d : DerivedSignal U) (heap : List U) : Option U :=
  heap[d.cell]?

/-- Rust `Signal::derive` from `reactive.rs`: compute `initial = f(self.get())`,
allocate the derived signal with that value, and subscribe a closure that
computes `f(value)` but drops the result (the closure cannot mutate the
derived signal; see the comment in the source).  Returns the source signal
with the extra no-op subscriber, the derived handle, and the heap extended
with the derived cell. -/
def Signal.derive (s : Signal T (List U)) (f : T → U) (heap : List U) :
    Signal T (List U) × DerivedSignal U × List U :=
  let initial := f s.get
  let derived : DerivedSignal U := { cell := heap.length }
  let callback : T → List U → List U := fun value w =>
    let new_derived := f value
    -- `new_derived` is computed and dropped, exactly as in the source
    let _ := new_derived
    w
  ((s.subscribe callback).1, derived, heap ++ [initial])

/-! ## Model of `kryon-core/src/ir.rs` and its serde JSON encoding

The round-trip claims are settled at the JSON *value* level (`serde_json`'s
text formatting is invertible plumbing outside the schema).  `f32` fields
are exact rationals, `u8`/`u32` fields are `Fin`-bounded as in Rust.
`HashMap<String, String>` (`Logic::functions`) is modelled as an
association list; serde map equality is order-insensitive, the model's list
order is preserved by both directions.  The serializer never emits
duplicate keys or `null`s, so those serde corner cases are not modelled. -/

mutual

inductive Json where
  | null
  | bool (b : Bool)
  | num (q : ℚ)
  | str (s : String)
  | arr (elems : JsonList)
  | obj (fields : JsonFields)

inductive JsonList where
  | nil
  | cons (j : Json) (rest : JsonList)

inductive JsonFields where
  | nil
  | cons (key : String) (val : Json) (rest : JsonFields)

end

/-- First value stored under a key (the serializer emits each key at most
once). -/
def getField : JsonFields → String → Option Json
  | .nil, _ => none
  | .cons key v rest, k => if key = k then some v else getField rest k

/-- Append an object field only when the optional value is present
(`#[serde(skip_serializing_if = "Option::is_none")]`). -/
def optField (k : String) (j : Option Json) (rest : JsonFields) : JsonFields :=
  match j with
  | none => rest
  | some v => .cons k v rest

/-- Rust `ComponentType` from `ir.rs` (closed enumeration). -/
inductive ComponentType where
  | Container | Row | Column | Center
  | Text | Button | Input | Checkbox
  | TabGroup | TabBar | Tab | TabContent | TabPanel
  | Table | TableRow | TableCell | Dropdown | Scrollable
deriving DecidableEq, Repr

/-- serde name of a `ComponentType` variant. -/
def componentTypeStr : ComponentType → String
  | .Container => "Container"
  | .Row => "Row"
  | .Column => "Column"
  | .Center => "Center"
  | .Text => "Text"
  | .Button => "Button"
  | .Input => "Input"
  | .Checkbox => "Checkbox"
  | .TabGroup => "TabGroup"
  | .TabBar => "TabBar"
  | .Tab => "Tab"
  | .TabContent => "TabContent"
  | .TabPanel => "TabPanel"
  | .Table => "Table"
  | .TableRow => "TableRow"
  | .TableCell => "TableCell"
  | .Dropdown => "Dropdown"
  | .Scrollable => "Scrollable"

def componentTypeOfStr : String → Option ComponentType
  | "Container" => some .Container
  | "Row" => some .Row
  | "Column" => some .Column
  | "Center" => some .Center
  | "Text" => some .Text
  | "Button" => some .Button
  | "Input" => some .Input
  | "Checkbox" => some .Checkbox
  | "TabGroup" => some .TabGroup
  | "TabBar" => some .TabBar
  | "Tab" => some .Tab
  | "TabContent" => some .TabContent
  | "TabPanel" => some .TabPanel
  | "Table" => some .Table
  | "TableRow" => some .TableRow
  | "TableCell" => some .TableCell
  | "Dropdown" => some .Dropdown
  | "Scrollable" => some .Scrollable
  | _ => none

/-- Rust `Alignment` from `ir.rs` (`rename_all = "lowercase"` plus the two
explicit renames); named `KAlignment` because Mathlib already has an
`Alignment`. -/
inductive KAlignment where
  | Start | Center | End | SpaceBetween | SpaceAround
deriving DecidableEq, Repr

def alignmentStr : KAlignment → String
  | .Start => "start"
  | .Center => "center"
  | .End => "end"
  | .SpaceBetween => "space-between"
  | .SpaceAround => "space-around"

def alignmentOfStr : String → Option KAlignment
  | "start" => some .Start
  | "center" => some .Center
  | "end" => some .End
  | "space-between" => some .SpaceBetween
  | "space-around" => some .SpaceAround
  | _ => none

/-- Rust `AlignmentValue` from `ir.rs` (`#[serde(untagged)]`). -/
inductive AlignmentValue where
  | Constant (a : KAlignment)
  | Variable (var : String)
deriving DecidableEq, Repr

/-- Untagged serialization: a `Constant` is its alignment string, a
`Variable` is the one-field object. -/
def alignmentValueJson : AlignmentValue → Json
  | .Constant a => .str (alignmentStr a)
  | .Variable v => .obj (.cons "var" (.str v) .nil)

/-- Untagged deserialization tries the variants in declaration order:
`Constant` (an alignment string), then `Variable` (an object with a string
under `var`). -/
def parseAlignmentValue : Json → Except String AlignmentValue
  | .str s =>
    match alignmentOfStr s with
    | some a => .ok (.Constant a)
    | none => .error "unknown alignment"
  | .obj fs =>
    match getField fs "var" with
    | some (.str v) => .ok (.Variable v)
    | _ => .error "expected variable reference"
  | _ => .error "expected alignment value"

abbrev U8 := Fin 256
abbrev U32 := Fin 4294967296

def u8Json (n : U8) : Json := .num ((n : Nat) : ℚ)

def u32Json (n : U32) : Json := .num ((n : Nat) : ℚ)

def asStr : Json → Except String String
  | .str s => .ok s
  | _ => .error "expected string"

def asNum : Json → Except String ℚ
  | .num q => .ok q
  | _ => .error "expected number"

def asU8 : Json → Except String U8
  | .num q =>
    if h : q.den = 1 ∧ 0 ≤ q.num ∧ q.num < 256 then
      .ok ⟨q.num.toNat, by omega⟩
    else .error "expected u8"
  | _ => .error "expected u8"

def asU32 : Json → Except String U32
  | .num q =>
    if h : q.den = 1 ∧ 0 ≤ q.num ∧ q.num < 4294967296 then
      .ok ⟨q.num.toNat, by omega⟩
    else .error "expected u32"
  | _ => .error "expected u32"

def parseComponentType (j : Json) : Except String ComponentType :=
  match j with
  | .str s =>
    match componentTypeOfStr s with
    | some t => .ok t
    | none => .error "unknown component type"
  | _ => .error "expected component type"

mutual

/-- Rust `IRComponent` from `ir.rs` (field order as declared; `type`,
`justifyContent`, `alignItems`, `flexGrow`, `flexShrink`, `fontSize` and
`windowTitle` are the serde renames). -/
inductive IRComponent where
  | mk (id : U32) (component_type : ComponentType)
      (width height : Option String)
      (padding margin gap : Option ℚ)
      (justify_content align_items : Option AlignmentValue)
      (flex_grow flex_shrink : Option U8)
      (background color : Option String)
      (opacity font_size : Option ℚ)
      (content text placeholder window_title : Option String)
      (children : IRComponentList)

inductive IRComponentList where
  | nil
  | cons (c : IRComponent) (rest : IRComponentList)

end

def IRComponent.id : IRComponent → U32
  | .mk x _ _ _ _ _ _ _ _ _ _ _ _ _ _ _ _ _ _ _ => x

def IRComponent.component_type : IRComponent → ComponentType
  | .mk _ x _ _ _ _ _ _ _ _ _ _ _ _ _ _ _ _ _ _ => x

def IRComponent.width : IRComponent → Option String
  | .mk _ _ x _ _ _ _ _ _ _ _ _ _ _ _ _ _ _ _ _ => x

def IRComponent.height : IRComponent → Option String
  | .mk _ _ _ x _ _ _ _ _ _ _ _ _ _ _ _ _ _ _ _ => x

def IRComponent.padding : IRComponent → Option ℚ
  | .mk _ _ _ _ x _ _ _ _ _ _ _ _ _ _ _ _ _ _ _ => x

def IRComponent.margin : IRComponent → Option ℚ
  | .mk _ _ _ _ _ x _ _ _ _ _ _ _ _ _ _ _ _ _ _ => x

def IRComponent.gap : IRComponent → Option ℚ
  | .mk _ _ _ _ _ _ x _ _ _ _ _ _ _ _ _ _ _ _ _ => x

def IRComponent.justify_content : IRComponent → Option AlignmentValue
  | .mk _ _ _ _ _ _ _ x _ _ _ _ _ _ _ _ _ _ _ _ => x

def IRComponent.align_items : IRComponent → Option AlignmentValue
  | .mk _ _ _ _ _ _ _ _ x _ _ _ _ _ _ _ _ _ _ _ => x

def IRComponent.flex_grow : IRComponent → Option U8
  | .mk _ _ _ _ _ _ _ _ _ x _ _ _ _ _ _ _ _ _ _ => x

def IRComponent.flex_shrink : IRComponent → Option U8
  | .mk _ _ _ _ _ _ _ _ _ _ x _ _ _ _ _ _ _ _ _ => x

def IRComponent.background : IRComponent → Option String
  | .mk _ _ _ _ _ _ _ _ _ _ _ x _ _ _ _ _ _ _ _ => x

def IRComponent.color : IRComponent → Option String
  | .mk _ _ _ _ _ _ _ _ _ _ _ _ x _ _ _ _ _ _ _ => x

def IRComponent.opacity : IRComponent → Option ℚ
  | .mk _ _ _ _ _ _ _ _ _ _ _ _ _ x _ _ _ _ _ _ => x

def IRComponent.font_size : IRComponent → Option ℚ
  | .mk _ _ _ _ _ _ _ _ _ _ _ _ _ _ x _ _ _ _ _ => x

def IRComponent.content : IRComponent → Option String
  | .mk _ _ _ _ _ _ _ _ _ _ _ _ _ _ _ x _ _ _ _ => x

def IRComponent.text : IRComponent → Option String
  | .mk _ _ _ _ _ _ _ _ _ _ _ _ _ _ _ _ x _ _ _ => x

def IRComponent.placeholder : IRComponent → Option String
  | .mk _ _ _ _ _ _ _ _ _ _ _ _ _ _ _ _ _ x _ _ => x

def IRComponent.window_title : IRComponent → Option String
  | .mk _ _ _ _ _ _ _ _ _ _ _ _ _ _ _ _ _ _ x _ => x

def IRComponent.children : IRComponent → IRComponentList
  | .mk _ _ _ _ _ _ _ _ _ _ _ _ _ _ _ _ _ _ _ x => x


/-- The ordered field list of a serialized `IRComponent`, given the
already-serialized `children` entry: `id` and `type` always, every optional
field only when present (`skip_serializing_if = "Option::is_none"`), in
declaration order. -/
def compFieldsAux (i : U32) (ty : ComponentType)
    (w h : Option String) (pad mar g : Option ℚ)
    (jc ai : Option AlignmentValue) (fg fsh : Option U8)
    (bg col : Option String) (op fsz : Option ℚ)
    (cont txt plh wt : Option String) (childJson : Option Json) :
    JsonFields :=
  .cons "id" (u32Json i)
    (.cons "type" (.str (componentTypeStr ty))
      (optField "width" (w.map .str)
        (optField "height" (h.map .str)
          (optField "padding" (pad.map .num)
            (optField "margin" (mar.map .num)
              (optField "gap" (g.map .num)
                (optField "justifyContent" (jc.map alignmentValueJson)
                  (optField "alignItems" (ai.map alignmentValueJson)
                    (optField "flexGrow" (fg.map u8Json)
                      (optField "flexShrink" (fsh.map u8Json)
                        (optField "background" (bg.map .str)
                          (optField "color" (col.map .str)
                            (optField "opacity" (op.map .num)
                              (optField "fontSize" (fsz.map .num)
                                (optField "content" (cont.map .str)
                                  (optField "text" (txt.map .str)
                                    (optField "placeholder" (plh.map .str)
                                      (optField "windowTitle" (wt.map .str)
                                        (optField "children" childJson
                                          .nil)))))))))))))))))))

mutual

/-- Serde serialization of one `IRComponent` as an ordered field list;
`children` is emitted only when nonempty
(`skip_serializing_if = "Vec::is_empty"`). -/
def compFields : IRComponent → JsonFields
  | .mk i ty w h pad mar g jc ai fg fsh bg col op fsz cont txt plh wt
      kids =>
    compFieldsAux i ty w h pad mar g jc ai fg fsh bg col op fsz cont txt
      plh wt
      (match kids with
       | .nil => none
       | ks => some (.arr (toJsonCompList ks)))
termination_by structural c => c

def toJsonCompList : IRComponentList → JsonList
  | .nil => .nil
  | .cons c rest => .cons (.obj (compFields c)) (toJsonCompList rest)
termination_by structural cs => cs

end

/-- Serde serialization of an `IRComponent` (a JSON object). -/
def toJsonComp (c : IRComponent) : Json := .obj (compFields c)

/-- Rust `ComponentDefinition` from `ir.rs`. -/
structure ComponentDefinition where
  name : String
  template : IRComponent

/-- Rust `EventBinding` from `ir.rs`. -/
structure EventBinding where
  component_id : U32
  event_type : String
  handler : String

/-- Rust `Logic` from `ir.rs` (`functions: HashMap<String, String>` modelled as
an association list, `event_bindings: Vec<EventBinding>`). -/
structure Logic where
  functions : List (String × String)
  event_bindings : List EventBinding

/-- Rust `ReactiveVariable` from `ir.rs` (`initial_value: serde_json::Value`). -/
structure ReactiveVariable where
  id : String
  var_type : String
  initial_value : Json

/-- Rust `ReactiveManifest` from `ir.rs`; the field is `variables` in the
source, a reserved word in Lean, serialized under the key `"variables"`. -/
structure ReactiveManifest where
  vars : List ReactiveVariable

/-- Rust `IRDocument` from `ir.rs`. -/
structure IRDocument where
  format_version : String
  component_definitions : List ComponentDefinition
  root : IRComponent
  logic : Logic
  reactive_manifest : ReactiveManifest

def jsonOfStringPairs : List (String × String) → JsonFields
  | [] => .nil
  | (k, v) :: rest => .cons k (.str v) (jsonOfStringPairs rest)

def jsonOfEventBinding (b : EventBinding) : Json :=
  .obj (.cons "component_id" (u32Json b.component_id)
    (.cons "event_type" (.str b.event_type)
      (.cons "handler" (.str b.handler) .nil)))

def jsonOfEventBindings : List EventBinding → JsonList
  | [] => .nil
  | b :: rest => .cons (jsonOfEventBinding b) (jsonOfEventBindings rest)

/-- Serde serialization of `Logic` (both fields always emitted; the
`#[serde(default)]` attributes only affect deserialization). -/
def toJsonLogic (l : Logic) : Json :=
  .obj (.cons "functions" (.obj (jsonOfStringPairs l.functions))
    (.cons "event_bindings" (.arr (jsonOfEventBindings l.event_bindings))
      .nil))

def jsonOfReactiveVariable (v : ReactiveVariable) : Json :=
  .obj (.cons "id" (.str v.id)
    (.cons "var_type" (.str v.var_type)
      (.cons "initial_value" v.initial_value .nil)))

def jsonOfReactiveVariables : List ReactiveVariable → JsonList
  | [] => .nil
  | v :: rest => .cons (jsonOfReactiveVariable v) (jsonOfReactiveVariables rest)

def toJsonManifest (m : ReactiveManifest) : Json :=
  .obj (.cons "variables" (.arr (jsonOfReactiveVariables m.vars)) .nil)

def jsonOfCompDef (d : ComponentDefinition) : Json :=
  .obj (.cons "name" (.str d.name)
    (.cons "template" (toJsonComp d.template) .nil))

def jsonOfCompDefs : List ComponentDefinition → JsonList
  | [] => .nil
  | d :: rest => .cons (jsonOfCompDef d) (jsonOfCompDefs rest)

/-- Field list of the serialized `IRDocument`: `format_version`, `root`,
`logic` and `reactive_manifest` always, `component_definitions` only when
nonempty. -/
def docFields (d : IRDocument) : JsonFields :=
  .cons "format_version" (.str d.format_version)
    (optField "component_definitions"
      (match d.component_definitions with
       | [] => none
       | ds => some (.arr (jsonOfCompDefs ds)))
      (.cons "root" (toJsonComp d.root)
        (.cons "logic" (toJsonLogic d.logic)
          (.cons "reactive_manifest" (toJsonManifest d.reactive_manifest)
            .nil))))

/-- Rust `IRDocument::to_json` from `ir.rs`, at the JSON value level. -/
def IRDocument.to_json (d : IRDocument) : Json := .obj (docFields d)

/-- Accumulator for serde's field-by-field struct deserialization of
`IRComponent`. -/
structure CompAcc where
  id : Option U32 := none
  component_type : Option ComponentType := none
  width : Option String := none
  height : Option String := none
  padding : Option ℚ := none
  margin : Option ℚ := none
  gap : Option ℚ := none
  justify_content : Option AlignmentValue := none
  align_items : Option AlignmentValue := none
  flex_grow : Option U8 := none
  flex_shrink : Option U8 := none
  background : Option String := none
  color : Option String := none
  opacity : Option ℚ := none
  font_size : Option ℚ := none
  content : Option String := none
  text : Option String := none
  placeholder : Option String := none
  window_title : Option String := none
  children : Option IRComponentList := none

/-- Finish deserializing an `IRComponent`: `id` and `type` are required,
the optional fields stay absent when missing, a missing `children` field
defaults to the empty list (`#[serde(default)]`). -/
def buildComp (acc : CompAcc) : Except String IRComponent :=
  match acc.id, acc.component_type with
  | some i, some ty =>
    .ok (.mk i ty acc.width acc.height acc.padding acc.margin acc.gap
      acc.justify_content acc.align_items acc.flex_grow acc.flex_shrink
      acc.background acc.color acc.opacity acc.font_size acc.content
      acc.text acc.placeholder acc.window_title
      (acc.children.getD .nil))
  | none, _ => .error "missing field id"
  | _, none => .error "missing field type"

/-- Serde's field dispatch for the scalar (non-recursive) fields of
`IRComponent`: parse the value according to the key's type and store it;
unknown keys are ignored. -/
def parseScalarField (k : String) (v : Json) (acc : CompAcc) :
    Except String CompAcc :=
  if k = "id" then (asU32 v).map (fun x => { acc with id := some x })
  else if k = "type" then
    (parseComponentType v).map (fun x => { acc with component_type := some x })
  else if k = "width" then (asStr v).map (fun x => { acc with width := some x })
  else if k = "height" then (asStr v).map (fun x => { acc with height := some x })
  else if k = "padding" then (asNum v).map (fun x => { acc with padding := some x })
  else if k = "margin" then (asNum v).map (fun x => { acc with margin := some x })
  else if k = "gap" then (asNum v).map (fun x => { acc with gap := some x })
  else if k = "justifyContent" then
    (parseAlignmentValue v).map (fun x => { acc with justify_content := some x })
  else if k = "alignItems" then
    (parseAlignmentValue v).map (fun x => { acc with align_items := some x })
  else if k = "flexGrow" then (asU8 v).map (fun x => { acc with flex_grow := some x })
  else if k = "flexShrink" then (asU8 v).map (fun x => { acc with flex_shrink := some x })
  else if k = "background" then (asStr v).map (fun x => { acc with background := some x })
  else if k = "color" then (asStr v).map (fun x => { acc with color := some x })
  else if k = "opacity" then (asNum v).map (fun x => { acc with opacity := some x })
  else if k = "fontSize" then (asNum v).map (fun x => { acc with font_size := some x })
  else if k = "content" then (asStr v).map (fun x => { acc with content := some x })
  else if k = "text" then (asStr v).map (fun x => { acc with text := some x })
  else if k = "placeholder" then (asStr v).map (fun x => { acc with placeholder := some x })
  else if k = "windowTitle" then (asStr v).map (fun x => { acc with window_title := some x })
  else .ok acc

mutual

/-- Serde deserialization of an `IRComponent` from a JSON value: the input
must be an object; its entries are consumed in order (the recursive
`children` entry inline, every other entry through `parseScalarField`), and
the struct is assembled at the end. -/
def parseComp : Json → Except String IRComponent
  | .obj fs => (parseCompFields fs {}).bind buildComp
  | _ => .error "expected object"

def parseCompFields : JsonFields → CompAcc → Except String CompAcc
  | .nil, acc => .ok acc
  | .cons k v rest, acc =>
    if k = "children" then
      match v with
      | .arr xs =>
        (parseCompList xs).bind (fun ks =>
          parseCompFields rest { acc with children := some ks })
      | _ => .error "expected array"
    else
      (parseScalarField k v acc).bind (fun acc1 => parseCompFields rest acc1)

def parseCompList : JsonList → Except String IRComponentList
  | .nil => .ok .nil
  | .cons j rest =>
    (parseComp j).bind (fun c =>
      (parseCompList rest).map (fun cs => .cons c cs))

end

def parseStringPairs : JsonFields → Except String (List (String × String))
  | .nil => .ok []
  | .cons k v rest =>
    (asStr v).bind (fun s =>
      (parseStringPairs rest).map (fun ps => (k, s) :: ps))

def parseEventBinding (j : Json) : Except String EventBinding :=
  match j with
  | .obj fs =>
    match getField fs "component_id", getField fs "event_type",
        getField fs "handler" with
    | some jc, some je, some jh =>
      (asU32 jc).bind (fun c =>
        (asStr je).bind (fun e =>
          (asStr jh).map (fun h =>
            { component_id := c, event_type := e, handler := h })))
    | _, _, _ => .error "missing event binding field"
  | _ => .error "expected object"

def parseEventBindingList : JsonList → Except String (List EventBinding)
  | .nil => .ok []
  | .cons j rest =>
    (parseEventBinding j).bind (fun b =>
      (parseEventBindingList rest).map (fun bs => b :: bs))

/-- Serde deserialization of `Logic`: both fields default when missing
(`#[serde(default)]`). -/
def parseLogic (j : Json) : Except String Logic :=
  match j with
  | .obj fs =>
    ((match getField fs "functions" with
      | none => .ok []
      | some (.obj ff) => parseStringPairs ff
      | some _ => .error "expected object" :
        Except String (List (String × String)))).bind (fun fns =>
      ((match getField fs "event_bindings" with
        | none => .ok []
        | some (.arr bs) => parseEventBindingList bs
        | some _ => .error "expected array" :
          Except String (List EventBinding))).map (fun ebs =>
        { functions := fns, event_bindings := ebs }))
  | _ => .error "expected object"

def parseReactiveVariable (j : Json) : Except String ReactiveVariable :=
  match j with
  | .obj fs =>
    match getField fs "id", getField fs "var_type",
        getField fs "initial_value" with
    | some ji, some jt, some jv =>
      (asStr ji).bind (fun i =>
        (asStr jt).map (fun t =>
          { id := i, var_type := t, initial_value := jv }))
    | _, _, _ => .error "missing reactive variable field"
  | _ => .error "expected object"

def parseReactiveVariableList : JsonList → Except String (List ReactiveVariable)
  | .nil => .ok []
  | .cons j rest =>
    (parseReactiveVariable j).bind (fun v =>
      (parseReactiveVariableList rest).map (fun vs => v :: vs))

def parseManifest (j : Json) : Except String ReactiveManifest :=
  match j with
  | .obj fs =>
    ((match getField fs "variables" with
      | none => .ok []
      | some (.arr vs) => parseReactiveVariableList vs
      | some _ => .error "expected array" :
        Except String (List ReactiveVariable))).map (fun vs => { vars := vs })
  | _ => .error "expected object"

def parseCompDef (j : Json) : Except String ComponentDefinition :=
  match j with
  | .obj fs =>
    match getField fs "name", getField fs "template" with
    | some jn, some jt =>
      (asStr jn).bind (fun n =>
        (parseComp jt).map (fun t => { name := n, template := t }))
    | _, _ => .error "missing component definition field"
  | _ => .error "expected object"

def parseCompDefList : JsonList → Except String (List ComponentDefinition)
  | .nil => .ok []
  | .cons j rest =>
    (parseCompDef j).bind (fun d =>
      (parseCompDefList rest).map (fun ds => d :: ds))

/-- Rust `IRDocument::from_json` from `ir.rs`, at the JSON value level:
`format_version` and `root` are required; `component_definitions`, `logic`
and `reactive_manifest` default when missing (`#[serde(default)]`). -/
def IRDocument.from_json (j : Json) : Except String IRDocument :=
  match j with
  | .obj fs =>
    ((match getField fs "format_version" with
      | none => .error "missing field format_version"
      | some jv => asStr jv : Except String String)).bind (fun ver =>
      ((match getField fs "component_definitions" with
        | none => .ok []
        | some (.arr ds) => parseCompDefList ds
        | some _ => .error "expected array" :
          Except String (List ComponentDefinition))).bind (fun defs =>
        ((match getField fs "root" with
          | none => .error "missing field root"
          | some jr => parseComp jr : Except String IRComponent)).bind (fun root =>
          ((match getField fs "logic" with
            | none => .ok { functions := [], event_bindings := [] }
            | some jl => parseLogic jl : Except String Logic)).bind (fun lg =>
            ((match getField fs "reactive_manifest" with
              | none => .ok { vars := [] }
              | some jm => parseManifest jm :
                Except String ReactiveManifest)).map (fun mf =>
              { format_version := ver, component_definitions := defs,
                root := root, logic := lg, reactive_manifest := mf })))))
  | _ => .error "expected object"

/-! ## Model of `parser.rs` (`ComponentBlock::parse`)

Token streams are `proc_macro2` token trees: identifiers, punctuation and
delimited groups; a `::` is two adjacent colon puncts (syn's single-colon
peek matches the first of them).  Opaque expressions are kept as raw token
lists; `syn::Expr` parsing is modelled as "take the tokens up to the next
top-level comma", with the leading-token check that rejects the starts
(`:` not opening a `::`, or `,`) on which `Expr::parse` fails — the
fragment the claims exercise.

The property-vs-child dispatch in `ComponentBlock::parse` is
`content.peek2(Token![:])`.  `content` is a `ParseBuffer`, so this resolves
to syn's inherent `ParseBuffer::peek2` — "is the second token a colon" —
and not to the file's `Peek2` helper trait (an inherent method whose
receiver type matches at the first candidate shadows a trait method); the
helper trait, which additionally forks and parses an identifier first, is
unreachable code.  The dispatch is therefore a parameter below:
`parseEntries` uses the inherent semantics the compiled code has, and
`specParseEntries` the identifier-aware semantics the helper trait (and the
spec) describe. -/

inductive Delim where
  | brace
  | parens
  | bracket
deriving DecidableEq

mutual

inductive Tok where
  | ident (s : String)
  | colon
  | comma
  | group (d : Delim) (content : TokList)
  | other (s : String)

inductive TokList where
  | nil
  | cons (t : Tok) (rest : TokList)

end

/-- A parsed `Property`: name plus the opaque value expression's tokens. -/
structure PProp where
  name : String
  value : TokList

mutual

/-- A parsed `ComponentBlock` (result of `ComponentBlock::parse`):
type name, properties in source order, children in source order. -/
inductive PBlock where
  | mk (component_type : String) (properties : List PProp)
      (children : PChildList)

/-- Parsed children (`Child::Component` or `Child::Expr`). -/
inductive PChildList where
  | nil
  | consBlock (b : PBlock) (rest : PChildList)
  | consExpr (toks : TokList) (rest : PChildList)

end

/-- Split at the first top-level comma: the tokens before it, and the
remainder beginning with the comma when there is one. -/
def splitAtTopComma : TokList → TokList × TokList
  | .nil => (.nil, .nil)
  | .cons .comma rest => (.nil, .cons .comma rest)
  | .cons t rest =>
    let (v, r) := splitAtTopComma rest
    (.cons t v, r)

/-- Rust `let _ = content.parse::<Token![,]>();` — consume an optional comma. -/
def dropOptComma : TokList → TokList
  | .cons .comma rest => rest
  | ts => ts

/-- syn's inherent `ParseBuffer::peek2(Token![:])`: skip the first token
tree, then check for a colon. -/
def secondIsColon : TokList → Bool
  | .cons _ (.cons .colon _) => true
  | _ => false

/-- The dispatch the file's `Peek2` helper trait describes (and the spec
states): fork-parse an identifier, then check for a colon. -/
def startsIdentColon : TokList → Bool
  | .cons (.ident _) (.cons .colon _) => true
  | _ => false

/-- Can `syn::Expr::parse` start on these tokens?  A lone `:` or a `,`
cannot begin an expression; a leading `::` (global path) can. -/
def canStartExpr : TokList → Bool
  | .nil => false
  | .cons .colon (.cons .colon _) => true
  | .cons .colon _ => false
  | .cons .comma _ => false
  | .cons _ _ => true

/-- The entry loop of `ComponentBlock::parse`, with the property-vs-child
dispatch as a parameter: while the buffer is nonempty, parse a `Property`
if `dispatch` holds (identifier, colon, value expression), otherwise a
`Child` (a nested block when an identifier is directly followed by a braced
group, an opaque expression otherwise), then consume an optional trailing
comma.  Fuel makes the recursion structural; every recursive call consumes
at least one token, so any fuel above the total token count is enough. -/
def parseEntriesWith (dispatch : TokList → Bool) :
    Nat → TokList → Except String (List PProp × PChildList)
  | 0, _ => .error "out of fuel"
  | _ + 1, .nil => .ok ([], .nil)
  | fuel + 1, toks =>
    if dispatch toks then
      -- Property::parse
      match toks with
      | .cons (.ident name) (.cons .colon rest) =>
        let (v, r) := splitAtTopComma rest
        if canStartExpr v then
          (parseEntriesWith dispatch fuel (dropOptComma r)).map
            (fun pc => ({ name := name, value := v } :: pc.1, pc.2))
        else .error "expected expression"
      | _ => .error "expected identifier"
    else
      -- Child::parse
      match toks with
      | .cons (.ident s) (.cons (.group .brace inner) rest) =>
        (parseEntriesWith dispatch fuel inner).bind (fun pc =>
          (parseEntriesWith dispatch fuel (dropOptComma rest)).map
            (fun pc2 =>
              (pc2.1, .consBlock (PBlock.mk s pc.1 pc.2) pc2.2)))
      | _ =>
        let (v, r) := splitAtTopComma toks
        if canStartExpr v then
          (parseEntriesWith dispatch fuel (dropOptComma r)).map
            (fun pc => (pc.1, .consExpr v pc.2))
        else .error "expected expression"

/-- The compiled dispatch: syn's inherent `peek2` (second token is a
colon). -/
def parseEntries : Nat → TokList → Except String (List PProp × PChildList) :=
  parseEntriesWith secondIsColon

/-- Modelled from the spec: the entry loop with the dispatch the spec (and
the shadowed `Peek2` helper trait in `parser.rs`) describes — a property is
recognized only when an identifier is immediately followed by a colon. -/
def specParseEntries :
    Nat → TokList → Except String (List PProp × PChildList) :=
  parseEntriesWith startsIdentColon

/-- Rust `ComponentBlock::parse`: component-type identifier, then a braced body
parsed by the entry loop. -/
def parseComponentBlock (fuel : Nat) (toks : TokList) :
    Except String (PBlock × TokList) :=
  match toks with
  | .cons (.ident name) (.cons (.group .brace inner) rest) =>
    (parseEntries fuel inner).map (fun pc =>
      (PBlock.mk name pc.1 pc.2, rest))
  | _ => .error "expected component block"

/-- The tokens of the entry `::helper::make()` — a fully qualified path
call, a valid Rust expression (so a legitimate opaque expression child)
whose *second* token is a colon while its first is not an identifier. -/
def globalPathEntry : TokList :=
  .cons .colon (.cons .colon (.cons (.ident "helper") (.cons .colon
    (.cons .colon (.cons (.ident "make")
      (.cons (.group .parens .nil) .nil))))))

/-- Proof infrastructure for the analyzer claims: the visitor state after
processing a subexpression all of whose `get` calls have the bare receiver
`x` — append `x` (deduplicated) when the subexpression has a `get` call,
and accumulate the flag. -/
def recordGet (x : String) (g : Bool) (st : ReactiveInfo) : ReactiveInfo :=
  { signal_vars :=
      st.signal_vars ++
        (if g && !(st.signal_vars.contains x) then [x] else []),
    has_get_calls := st.has_get_calls || g }

/-- Proof infrastructure: the visitor state after processing a
subexpression none of whose `get` calls has a bare receiver — only the flag
accumulates. -/
def flagOnly (g : Bool) (st : ReactiveInfo) : ReactiveInfo :=
  { st with has_get_calls := st.has_get_calls || g }

/-! # Theorems -/

/-! ## C1: pre-order id assignment -/

mutual

/-- The generated node tree for a block entered at counter value `k` carries
ids `k+1, …, k + blockCount` in pre-order, and leaves the counter at
`k + blockCount`. -/
theorem generate_component_ids : ∀ (c : ComponentBlock) (k : Nat),
    preorderIds (generate_component c k).1 =
      List.range' (k + 1) (blockCount c) ∧
    (generate_component c k).2 = k + blockCount c
  | .mk ty props kids, k => by
    have ih := generate_children_ids kids (k + 1)
    rcases hgc : generate_children kids (k + 1) with ⟨gs, kOut⟩
    rw [hgc] at ih
    simp only [generate_component, hgc, blockCount]
    refine ⟨?_, by omega⟩
    simp only [preorderIds, ih.1]
    rw [show 1 + blockCountL kids = blockCountL kids + 1 from by omega,
      List.range'_succ]

theorem generate_children_ids : ∀ (cs : ChildList) (k : Nat),
    preorderIdsL (generate_children cs k).1 =
      List.range' (k + 1) (blockCountL cs) ∧
    (generate_children cs k).2 = k + blockCountL cs
  | .nil, k => by simp [generate_children, preorderIdsL, blockCountL]
  | .cons (.component c) rest, k => by
    have ih1 := generate_component_ids c k
    rcases h1 : generate_component c k with ⟨g, k1⟩
    rw [h1] at ih1
    have ih2 := generate_children_ids rest k1
    rcases h2 : generate_children rest k1 with ⟨gs, k2⟩
    rw [h2] at ih2
    have hk1 : k1 = k + blockCount c := ih1.2
    have hk2 : k2 = k1 + blockCountL rest := ih2.2
    simp only [generate_children, h1, h2, preorderIdsL, blockCountL]
    refine ⟨?_, by omega⟩
    simp only [ih1.1, ih2.1, hk1]
    rw [show k + blockCount c + 1 = (k + 1) + blockCount c from by omega]
    rw [Nat.add_comm (blockCount c) (blockCountL rest)]
    exact List.range'_append_1 (k + 1) (blockCount c) (blockCountL rest)
  | .cons (.expr e) rest, k => by
    have ih := generate_children_ids rest k
    rcases h : generate_children rest k with ⟨gs, k1⟩
    rw [h] at ih
    simp only [generate_children, h, preorderIdsL, blockCountL]
    exact ih

end

/-- Claim C1. For every component tree produced by code generation from a
`ComponentBlock`, node ids are assigned by a single counter initialized to
zero and incremented once per node in a pre-order traversal (parent before
children, children in source order), the counter's value after incrementing
becoming that node's id; the ids read in pre-order are exactly
`1, …, blockCount c` — a duplicate-free bijection from pre-order position
`i` to id `i + 1`. -/
theorem generate_code_assigns_preorder_ids (c : ComponentBlock) :
    preorderIds (generate_code c) = List.range' 1 (blockCount c) ∧
    (preorderIds (generate_code c)).Nodup ∧
    (∀ i, i < blockCount c →
      (preorderIds (generate_code c))[i]? = some (1 + i)) :=
  by
  have h := (generate_component_ids c 0).1
  simp only [Nat.zero_add] at h
  have hg : preorderIds (generate_code c) = List.range' 1 (blockCount c) := h
  refine ⟨hg, ?_, ?_⟩
  · rw [hg]; exact List.nodup_range' 1 (blockCount c)
  · intro i hi
    rw [hg, List.getElem?_range' 1 1 hi]
    simp

/-- Witness for C1's positional conjunct at a concrete two-node tree:
`Column { Text { } }` generates ids `[1, 2]` and position `1` holds id
`2`. -/
theorem generate_code_assigns_preorder_ids_witness :
    (1 < blockCount (.mk "Column" []
        (.cons (.component (.mk "Text" [] .nil)) .nil)) ∧
      (preorderIds (generate_code (.mk "Column" []
        (.cons (.component (.mk "Text" [] .nil)) .nil))))[1]? = some (1 + 1)) :=
  ⟨by decide,
   (generate_code_assigns_preorder_ids (.mk "Column" []
      (.cons (.component (.mk "Text" [] .nil)) .nil))).2.2 1 (by decide)⟩

/-! ## C6: block-name-to-constructor mapping -/

/-- Claim C6. The block-name-to-constructor mapping resolves every name in
the fixed table (`App` aliasing to the container builder, and `Column`,
`Row`, `Container`, `Text`, `Button` to their same-named builders), and
every name not in the table is converted from PascalCase to snake_case, so
that `"TabGroup"` resolves to the same constructor name as the normalized
form `"tab_group"`.  (Whether the resulting constructor identifier
resolves — "unresolved names are a compile-time error" — is decided by the
host Rust compiler after macro expansion, outside this embedding.) -/
theorem component_type_to_builder_table_and_fallback :
    component_type_to_builder "App" = "container" ∧
    component_type_to_builder "Column" = "column" ∧
    component_type_to_builder "Row" = "row" ∧
    component_type_to_builder "Container" = "container" ∧
    component_type_to_builder "Text" = "text" ∧
    component_type_to_builder "Button" = "button" ∧
    (∀ name,
      name ∉ ["App", "Column", "Row", "Container", "Text", "Button"] →
      component_type_to_builder name = to_snake_case name) ∧
    component_type_to_builder "TabGroup" = "tab_group" ∧
    to_snake_case "TabGroup" = "tab_group" :=
  by
  refine ⟨by decide, by decide, by decide, by decide, by decide, by decide,
    ?_, by decide, by decide⟩
  intro name h
  simp only [List.mem_cons, List.not_mem_nil, or_false] at h
  unfold component_type_to_builder
  split
  · simp_all
  · simp_all
  · simp_all
  · simp_all
  · simp_all
  · simp_all
  · rfl

/-- Witness for C6's fallback conjunct at the concrete name
`"DropdownMenu"`. -/
theorem component_type_to_builder_table_and_fallback_witness :
    ("DropdownMenu" ∉
        ["App", "Column", "Row", "Container", "Text", "Button"] ∧
      component_type_to_builder "DropdownMenu" =
        to_snake_case "DropdownMenu") :=
  ⟨by decide,
   component_type_to_builder_table_and_fallback.2.2.2.2.2.2.1
     "DropdownMenu" (by decide)⟩

/-! ## C7: initial-content properties -/

/-- Rust `find_map` over the initial-content check is `find?` followed by the
value projection. -/
theorem get_initial_content_eq_find (ps : List KProperty) :
    get_initial_content ps =
      (ps.find? (fun p => is_initial_content_property p.name)).map
        KProperty.value := by
  induction ps with
  | nil => rfl
  | cons p ps ih =>
    by_cases h : is_initial_content_property p.name
    · simp [get_initial_content, List.findSome?_cons, List.find?_cons, h]
    · simp only [Bool.not_eq_true] at h
      simp [get_initial_content, List.findSome?_cons, List.find?_cons, h,
        ← ih, get_initial_content]

/-- The setter pass is the non-initial-content properties, one setter call
each, in source order. -/
theorem property_calls_eq_filter (ps : List KProperty) :
    property_calls ps =
      (ps.filter (fun p => !(is_initial_content_property p.name))).map
        (fun p => (p.name, p.value)) := by
  induction ps with
  | nil => rfl
  | cons p ps ih =>
    by_cases h : is_initial_content_property p.name
    · simp [property_calls, List.filterMap_cons, List.filter_cons, h, ← ih,
        property_calls]
    · simp only [Bool.not_eq_true] at h
      simp [property_calls, List.filterMap_cons, List.filter_cons, h, ← ih,
        property_calls]

/-- Claim C7, counterexample. As stated — "a property named `content`,
`text`, or `title`, if present, has its value passed as the constructor's
initial argument" read as a statement about every such property — the claim
fails: in `Button { text: "a", title: "b" }` only the first special
property's value becomes the constructor argument, and the `title`
property's value is dropped. -/
theorem initial_content_counterexample :
    ¬ (∀ (component_type : String) (properties : List KProperty)
        (children : ChildList) (k : Nat) (p : KProperty),
        p ∈ properties → is_initial_content_property p.name = true →
        (generate_component
            (.mk component_type properties children) k).1.initialArg =
          some p.value) := by
  intro h
  have hc := h "Button"
    [{ name := "text", value := .lit "a" },
     { name := "title", value := .lit "b" }]
    .nil 0 { name := "title", value := .lit "b" }
    (by simp) (by decide)
  have : get_initial_content
      [{ name := "text", value := SynExpr.lit "a" },
       { name := "title", value := SynExpr.lit "b" }] =
      some (SynExpr.lit "b") := by
    rcases hgc : generate_children ChildList.nil 1 with ⟨gs, k1⟩
    simpa [generate_component, hgc, GenNode.initialArg] using hc
  simp [get_initial_content, List.findSome?_cons,
    is_initial_content_property] at this

/-- Claim C7, amended. For every component block, the *first* property named
`content`, `text`, or `title`, if one is present, supplies the
constructor's initial argument; *all* properties with these names are
excluded from the generic property-setter pass (later ones are dropped
entirely); every other property becomes exactly one setter invocation in
source order. -/
theorem generate_component_content_and_setters
    (component_type : String) (properties : List KProperty)
    (children : ChildList) (k : Nat) :
    (generate_component (.mk component_type properties children) k).1.initialArg =
      ((properties.find? (fun p => is_initial_content_property p.name)).map
        KProperty.value) ∧
    (generate_component (.mk component_type properties children) k).1.setters =
      ((properties.filter
          (fun p => !(is_initial_content_property p.name))).map
        (fun p => (p.name, p.value))) := by
  rcases hgc : generate_children children (k + 1) with ⟨gs, k1⟩
  constructor
  · simp [generate_component, hgc, GenNode.initialArg,
      get_initial_content_eq_find]
  · simp [generate_component, hgc, GenNode.setters,
      property_calls_eq_filter]

/-! ## C5: dimension string conversion -/

/-- Claim C5. The string-to-`Dimension` conversion is total (it returns a
`Dimension`, never an error) and lenient: `Dimension::px(100)` formats as
`"100px"` and that string reparses to the same pixel value, while a string
with an unparseable suffix such as `"7xyz"` reparses to the `Auto` fallback
dimension. -/
theorem dimension_string_round_trip :
    Dimension.display (Dimension.px 100) = "100px" ∧
    dimensionFromString "100px" = Dimension.px 100 ∧
    dimensionFromString "7xyz" = Dimension.Auto :=
  ⟨by decide, by decide, by decide⟩

/-! ## C3 and C10: the reactive analyzer -/

theorem recordGet_false (x : String) (st : ReactiveInfo) :
    recordGet x false st = st := by
  cases st; simp [recordGet]

theorem recordGet_comp (x : String) (g1 g2 : Bool) (st : ReactiveInfo) :
    recordGet x g2 (recordGet x g1 st) = recordGet x (g1 || g2) st := by
  cases st with
  | mk vars flag =>
    cases g1 <;> cases g2 <;>
      by_cases h : x ∈ vars <;>
        simp [recordGet, h, List.mem_append]

theorem flagOnly_false (st : ReactiveInfo) : flagOnly false st = st := by
  cases st; simp [flagOnly]

theorem flagOnly_comp (g1 g2 : Bool) (st : ReactiveInfo) :
    flagOnly g2 (flagOnly g1 st) = flagOnly (g1 || g2) st := by
  cases st; simp [flagOnly, Bool.or_assoc]

theorem getCheck_bare (x : String) (segments : List String)
    (st : ReactiveInfo) (h : pathGetIdent segments = some x) :
    getCheck (.path segments) "get" st = recordGet x true st := by
  cases st with
  | mk vars flag =>
    by_cases hc : x ∈ vars <;> simp [getCheck, h, recordGet, hc]

mutual

/-- If every `get` call of `e` has the bare receiver `x`, the visitor turns
state `st` into `recordGet x (hasGet e) st`. -/
theorem visitExpr_bare (x : String) : ∀ (e : SynExpr) (st : ReactiveInfo),
    allGetsBare x e = true → visitExpr e st = recordGet x (hasGet e) st
  | .lit s, st, _ => by simp [visitExpr, hasGet, recordGet_false]
  | .path segs, st, _ => by simp [visitExpr, hasGet, recordGet_false]
  | .methodCall receiver method args, st, h => by
    simp only [allGetsBare, Bool.and_eq_true] at h
    obtain ⟨⟨hguard, hrecv⟩, hargs⟩ := h
    by_cases hm : method == "get"
    · cases receiver with
      | path segs =>
        have hx : pathGetIdent segs = some x := by
          simp [hm] at hguard
          simpa using hguard
        have hmeq : method = "get" := by simpa using hm
        rw [visitExpr, hmeq, getCheck_bare x segs st hx]
        rw [show visitExpr (.path segs) (recordGet x true st) =
            recordGet x true st from by simp [visitExpr]]
        rw [visitExprList_bare x args _ hargs, recordGet_comp]
        simp [hasGet, hmeq]
      | lit s => simp [hm] at hguard
      | methodCall r m a => simp [hm] at hguard
      | call f a => simp [hm] at hguard
      | field b n => simp [hm] at hguard
      | binary o l r => simp [hm] at hguard
      | paren i => simp [hm] at hguard
    · have hm' : (method == "get") = false := by simpa using hm
      rw [visitExpr, show getCheck receiver method st = st from by
        simp [getCheck, hm']]
      rw [visitExpr_bare x receiver st hrecv,
        visitExprList_bare x args _ hargs, recordGet_comp]
      simp [hasGet, hm']
  | .call callee args, st, h => by
    simp only [allGetsBare, Bool.and_eq_true] at h
    rw [visitExpr, visitExpr_bare x callee st h.1,
      visitExprList_bare x args _ h.2, recordGet_comp]
    simp [hasGet]
  | .field base n, st, h => by
    rw [visitExpr, visitExpr_bare x base st (by simpa [allGetsBare] using h)]
    simp [hasGet]
  | .binary op lhs rhs, st, h => by
    simp only [allGetsBare, Bool.and_eq_true] at h
    rw [visitExpr, visitExpr_bare x lhs st h.1,
      visitExpr_bare x rhs _ h.2, recordGet_comp]
    simp [hasGet]
  | .paren inner, st, h => by
    rw [visitExpr, visitExpr_bare x inner st (by simpa [allGetsBare] using h)]
    simp [hasGet]

theorem visitExprList_bare (x : String) :
    ∀ (es : SynExprList) (st : ReactiveInfo),
    allGetsBareL x es = true →
      visitExprList es st = recordGet x (hasGetL es) st
  | .nil, st, _ => by simp [visitExprList, hasGetL, recordGet_false]
  | .cons e rest, st, h => by
    simp only [allGetsBareL, Bool.and_eq_true] at h
    rw [visitExprList, visitExpr_bare x e st h.1,
      visitExprList_bare x rest _ h.2, recordGet_comp]
    simp [hasGetL]

end

mutual

/-- An expression without any `get` method call leaves the visitor state
unchanged. -/
theorem visitExpr_no_get : ∀ (e : SynExpr) (st : ReactiveInfo),
    hasGet e = false → visitExpr e st = st
  | .lit s, st, _ => by simp [visitExpr]
  | .path segs, st, _ => by simp [visitExpr]
  | .methodCall receiver method args, st, h => by
    simp only [hasGet, Bool.or_eq_false_iff] at h
    rw [visitExpr, show getCheck receiver method st = st from by
      simp [getCheck, h.1.1]]
    rw [visitExpr_no_get receiver st h.1.2, visitExprList_no_get args st h.2]
  | .call callee args, st, h => by
    simp only [hasGet, Bool.or_eq_false_iff] at h
    rw [visitExpr, visitExpr_no_get callee st h.1,
      visitExprList_no_get args st h.2]
  | .field base n, st, h => by
    rw [visitExpr, visitExpr_no_get base st (by simpa [hasGet] using h)]
  | .binary op lhs rhs, st, h => by
    simp only [hasGet, Bool.or_eq_false_iff] at h
    rw [visitExpr, visitExpr_no_get lhs st h.1, visitExpr_no_get rhs st h.2]
  | .paren inner, st, h => by
    rw [visitExpr, visitExpr_no_get inner st (by simpa [hasGet] using h)]

theorem visitExprList_no_get : ∀ (es : SynExprList) (st : ReactiveInfo),
    hasGetL es = false → visitExprList es st = st
  | .nil, st, _ => by simp [visitExprList]
  | .cons e rest, st, h => by
    simp only [hasGetL, Bool.or_eq_false_iff] at h
    rw [visitExprList, visitExpr_no_get e st h.1,
      visitExprList_no_get rest st h.2]

end

/-- Claim C3. Every expression that references a signal only through
`get()` calls applied to the bare variable `x` (every `get` receiver is the
bare path `x`; other, non-`get` references are unrestricted) is reported by
`analyze_reactive_expr` with exactly that one variable name (deduplicated)
and `has_get_calls = true`; every expression containing no `get()` call is
reported with empty `signal_vars` and `has_get_calls = false`. -/
theorem analyze_reactive_expr_spec :
    (∀ (e : SynExpr) (x : String),
      allGetsBare x e = true → hasGet e = true →
      analyze_reactive_expr e =
        { signal_vars := [x], has_get_calls := true }) ∧
    (∀ e : SynExpr, hasGet e = false →
      analyze_reactive_expr e =
        { signal_vars := [], has_get_calls := false }) := by
  constructor
  · intro e x hbare hget
    rw [analyze_reactive_expr, visitExpr_bare x e _ hbare, hget]
    simp [recordGet]
  · intro e hget
    rw [analyze_reactive_expr, visitExpr_no_get e _ hget]

/-- Witness for C3 at `count.get()` (one dependency) and the literal
`"Hello, World!"` (no dependency). -/
theorem analyze_reactive_expr_spec_witness :
    (allGetsBare "count" (.methodCall (.path ["count"]) "get" .nil) = true ∧
      analyze_reactive_expr (.methodCall (.path ["count"]) "get" .nil) =
        { signal_vars := ["count"], has_get_calls := true }) ∧
    (hasGet (.lit "Hello, World!") = false ∧
      analyze_reactive_expr (.lit "Hello, World!") =
        { signal_vars := [], has_get_calls := false }) :=
  ⟨⟨by decide,
    analyze_reactive_expr_spec.1 (.methodCall (.path ["count"]) "get" .nil)
      "count" (by decide) (by decide)⟩,
   ⟨by decide,
    analyze_reactive_expr_spec.2 (.lit "Hello, World!") (by decide)⟩⟩

mutual

/-- If no `get` call of `e` has a bare single-segment path receiver, the
visitor only accumulates the flag. -/
theorem visitExpr_noBare : ∀ (e : SynExpr) (st : ReactiveInfo),
    noBareGet e = true → visitExpr e st = flagOnly (hasGet e) st
  | .lit s, st, _ => by simp [visitExpr, hasGet, flagOnly_false]
  | .path segs, st, _ => by simp [visitExpr, hasGet, flagOnly_false]
  | .methodCall receiver method args, st, h => by
    simp only [noBareGet, Bool.and_eq_true] at h
    obtain ⟨⟨hguard, hrecv⟩, hargs⟩ := h
    have hstep : getCheck receiver method st =
        flagOnly (method == "get") st := by
      by_cases hm : method == "get"
      · cases receiver with
        | path segs =>
          have hx : pathGetIdent segs = none := by
            simp [hm, Option.isNone_iff_eq_none] at hguard
            exact hguard
          simp [getCheck, hm, hx, flagOnly, show method = "get" from by
            simpa using hm]
        | lit s => simp [getCheck, hm, flagOnly, show method = "get" from by
            simpa using hm]
        | methodCall r m a => simp [getCheck, hm, flagOnly,
            show method = "get" from by simpa using hm]
        | call f a => simp [getCheck, hm, flagOnly,
            show method = "get" from by simpa using hm]
        | field b n => simp [getCheck, hm, flagOnly,
            show method = "get" from by simpa using hm]
        | binary o l r => simp [getCheck, hm, flagOnly,
            show method = "get" from by simpa using hm]
        | paren i => simp [getCheck, hm, flagOnly,
            show method = "get" from by simpa using hm]
      · have hm' : (method == "get") = false := by simpa using hm
        simp [getCheck, hm', flagOnly_false]
    rw [visitExpr, hstep, visitExpr_noBare receiver _ hrecv,
      visitExprList_noBare args _ hargs, flagOnly_comp, flagOnly_comp]
    simp [hasGet, Bool.or_assoc]
  | .call callee args, st, h => by
    simp only [noBareGet, Bool.and_eq_true] at h
    rw [visitExpr, visitExpr_noBare callee st h.1,
      visitExprList_noBare args _ h.2, flagOnly_comp]
    simp [hasGet]
  | .field base n, st, h => by
    rw [visitExpr, visitExpr_noBare base st (by simpa [noBareGet] using h)]
    simp [hasGet]
  | .binary op lhs rhs, st, h => by
    simp only [noBareGet, Bool.and_eq_true] at h
    rw [visitExpr, visitExpr_noBare lhs st h.1,
      visitExpr_noBare rhs _ h.2, flagOnly_comp]
    simp [hasGet]
  | .paren inner, st, h => by
    rw [visitExpr, visitExpr_noBare inner st (by simpa [noBareGet] using h)]
    simp [hasGet]

theorem visitExprList_noBare : ∀ (es : SynExprList) (st : ReactiveInfo),
    noBareGetL es = true → visitExprList es st = flagOnly (hasGetL es) st
  | .nil, st, _ => by simp [visitExprList, hasGetL, flagOnly_false]
  | .cons e rest, st, h => by
    simp only [noBareGetL, Bool.and_eq_true] at h
    rw [visitExprList, visitExpr_noBare e st h.1,
      visitExprList_noBare rest _ h.2, flagOnly_comp]
    simp [hasGetL]

end

/-- Claim C10. For every expression containing a `get` method call but in
which no `get` receiver is a bare single-segment identifier path (field
accesses, nested calls, multi-segment paths, …), `analyze_reactive_expr`
reports `has_get_calls = true` with an empty `signal_vars`, and
`is_reactive_expr` returns `true` for such an expression. -/
theorem analyze_reactive_expr_non_bare_receiver (e : SynExpr)
    (hnb : noBareGet e = true) (hget : hasGet e = true) :
    analyze_reactive_expr e = { signal_vars := [], has_get_calls := true } ∧
    is_reactive_expr e = true := by
  have h : analyze_reactive_expr e =
      { signal_vars := [], has_get_calls := true } := by
    rw [analyze_reactive_expr, visitExpr_noBare e _ hnb, hget]
    rfl
  exact ⟨h, by simp [is_reactive_expr, h]⟩

/-- Witness for C10 at `state.counter.get()` (a `get` whose receiver is a
field access). -/
theorem analyze_reactive_expr_non_bare_receiver_witness :
    analyze_reactive_expr
        (.methodCall (.field (.path ["state"]) "counter") "get" .nil) =
      { signal_vars := [], has_get_calls := true } ∧
    is_reactive_expr
        (.methodCall (.field (.path ["state"]) "counter") "get" .nil) =
      true :=
  analyze_reactive_expr_non_bare_receiver
    (.methodCall (.field (.path ["state"]) "counter") "get" .nil)
    (by decide) (by decide)

/-! ## C8: synchronous subscriber notification -/

/-- Folding the notification loop over recorder callbacks appends one trace
entry per registered subscriber, in registration order, each carrying the
notified value. -/
theorem foldl_recorders {T : Type} (v : T) :
    ∀ (ids : List Nat) (w : List (Nat × T)),
    List.foldl (fun w cb => cb v w) w
      (ids.map (fun i => fun val tr => tr ++ [(i, val)])) =
      w ++ ids.map (fun i => (i, v))
  | [], w => by simp
  | i :: ids, w => by
    simp [List.foldl_cons, foldl_recorders v ids]

/-- Claim C8. For every signal and every call to `set` or `update`, the new
value is stored and every registered subscriber callback is invoked
synchronously, exactly once, in registration order, with the new value,
before the call returns.  Instrumentation: with one trace-recording
callback per registered subscriber, the world returned by the call (hence
fully written before it returns — nothing is deferred or batched) extends
the input trace by exactly one entry per subscriber, in registration order,
each holding the new value. -/
theorem signal_set_update_notify_in_order
    (T : Type) (ids : List Nat) (v0 v : T) (f : T → T)
    (w : List (Nat × T)) :
    let s : Signal T (List (Nat × T)) :=
      { value := v0,
        subscribers := ids.map (fun i => fun val tr => tr ++ [(i, val)]) }
    (s.set v w).1.value = v ∧
    (s.set v w).2 = w ++ ids.map (fun i => (i, v)) ∧
    (s.update f w).1.value = f v0 ∧
    (s.update f w).2 = w ++ ids.map (fun i => (i, f v0)) := by
  refine ⟨rfl, ?_, rfl, ?_⟩
  · simp [Signal.set, Signal.notify_subscribers, foldl_recorders]
  · simp [Signal.update, Signal.notify_subscribers, foldl_recorders]

/-! ## C9: `derive` is a one-shot snapshot -/

/-- If every callback in the list leaves heap cell `c` unchanged, so does
the whole notification fold. -/
theorem foldl_preserves_cell {T U : Type} (v : T) (c : Nat) :
    ∀ (cbs : List (T → List U → List U)) (h : List U),
    (∀ cb ∈ cbs, ∀ h' : List U, (cb v h')[c]? = h'[c]?) →
    (List.foldl (fun w cb => cb v w) h cbs)[c]? = h[c]?
  | [], h, _ => by simp
  | cb :: cbs, h, hp => by
    rw [List.foldl_cons,
      foldl_preserves_cell v c cbs (cb v h)
        (fun cb' hm h' => hp cb' (List.mem_cons_of_mem cb hm) h'),
      hp cb (List.mem_cons_self cb cbs) h]

/-- Claim C9. For every signal `s` and function `f`, `s.derive f` is a
one-shot snapshot: immediately after the call the derived signal's value is
`f` applied to `s`'s value at derive time, and no later `set` or `update`
on `s` changes the derived signal's cell (the closure `derive` registers
computes `f value` and drops it).  The hypothesis says only that the
subscribers `s` already has cannot write heap cells that are allocated
after them — in Rust they cannot hold an `Rc` to a cell that does not yet
exist.  The last conjunct (subscribers survive `set`) lets the middle
conjuncts be applied to any later sequence of updates. -/
theorem signal_derive_one_shot
    (T U : Type) (s : Signal T (List U)) (f : T → U) (heap : List U)
    (hsub : ∀ cb ∈ s.subscribers, ∀ (v : T) (h : List U) (n : Nat),
      heap.length ≤ n → (cb v h)[n]? = h[n]?) :
    ((s.derive f heap).2.1).get ((s.derive f heap).2.2) = some (f s.get) ∧
    (∀ (v : T) (h : List U),
      ((s.derive f heap).2.1).get (((s.derive f heap).1.set v h).2) =
        ((s.derive f heap).2.1).get h) ∧
    (∀ (g : T → T) (h : List U),
      ((s.derive f heap).2.1).get (((s.derive f heap).1.update g h).2) =
        ((s.derive f heap).2.1).get h) ∧
    (∀ (v : T) (h : List U),
      (((s.derive f heap).1.set v h).1).subscribers =
        ((s.derive f heap).1).subscribers) := by
  have hpres : ∀ (v : T) (h : List U),
      (Signal.notify_subscribers
        ((s.derive f heap).1) v h)[heap.length]? = h[heap.length]? := by
    intro v h
    apply foldl_preserves_cell
    intro cb hm h'
    simp only [Signal.derive, Signal.subscribe] at hm
    rcases List.mem_append.1 hm with hs | hlast
    · exact hsub cb hs v h' heap.length (Nat.le_refl _)
    · simp only [List.mem_singleton] at hlast
      subst hlast
      rfl
  refine ⟨?_, ?_, ?_, fun v h => rfl⟩
  · show (heap ++ [f s.get])[heap.length]? = some (f s.get)
    simp
  · intro v h
    exact hpres v h
  · intro g h
    exact hpres (g ((s.derive f heap).1).value) h

/-- Witness for C9: a fresh `Signal Nat` with value `5`, derived through
doubling — the derived cell holds `10`, and a later `set 7` leaves it at
`10`. -/
theorem signal_derive_one_shot_witness :
    (((Signal.new 5 : Signal Nat (List Nat)).derive (fun t => t * 2)
        []).2.1).get
      (((Signal.new 5 : Signal Nat (List Nat)).derive (fun t => t * 2)
        []).2.2) = some 10 ∧
    (((Signal.new 5 : Signal Nat (List Nat)).derive (fun t => t * 2)
        []).2.1).get
      ((((Signal.new 5 : Signal Nat (List Nat)).derive (fun t => t * 2)
        []).1.set 7 [10]).2) = some 10 := by
  have h := signal_derive_one_shot Nat Nat (Signal.new 5) (fun t => t * 2)
    [] (by simp [Signal.new])
  exact ⟨h.1, by rw [h.2.1 7 [10]]; rfl⟩

/-! ## C4: IR document JSON round trip -/

theorem asU32_u32Json (n : U32) : asU32 (u32Json n) = .ok n := by
  have hlt : ((n : Nat) : ℤ) < 4294967296 := by exact_mod_cast n.isLt
  simp [asU32, u32Json, Rat.den_natCast, Rat.num_natCast, hlt]

theorem asU8_u8Json (n : U8) : asU8 (u8Json n) = .ok n := by
  have hlt : ((n : Nat) : ℤ) < 256 := by exact_mod_cast n.isLt
  simp [asU8, u8Json, Rat.den_natCast, Rat.num_natCast, hlt]

theorem parseComponentType_roundtrip (t : ComponentType) :
    parseComponentType (.str (componentTypeStr t)) = .ok t := by
  cases t <;> rfl

theorem parseAlignmentValue_roundtrip (a : AlignmentValue) :
    parseAlignmentValue (alignmentValueJson a) = .ok a := by
  cases a with
  | Constant al => cases al <;> rfl
  | Variable v => rfl

theorem getField_optField_other (k k' : String) (j : Option Json)
    (rest : JsonFields) (h : ¬(k = k')) :
    getField (optField k j rest) k' = getField rest k' := by
  cases j <;> simp [optField, getField, h]

theorem exceptBind_ok {α β ε : Type} (a : α) (f : α → Except ε β) :
    Except.bind (.ok a) f = f a := rfl

theorem exceptMap_ok {α β ε : Type} (a : α) (f : α → β) :
    Except.map f (.ok a : Except ε α) = .ok (f a) := rfl

theorem parseCompFields_nil (acc : CompAcc) :
    parseCompFields .nil acc = .ok acc := by
  rw [parseCompFields.eq_def]

theorem pcf_id (i : U32) (rest : JsonFields) (acc : CompAcc) :
    parseCompFields (.cons "id" (u32Json i) rest) acc =
      parseCompFields rest { acc with id := some i } := by
  rw [parseCompFields.eq_def]
  simp only []
  rw [if_neg (by decide)]
  rw [show parseScalarField "id" (u32Json i) acc =
      .ok { acc with id := some i } from by
    simp [parseScalarField, asU32_u32Json, exceptMap_ok]]
  rw [exceptBind_ok]

theorem pcf_type (t : ComponentType) (rest : JsonFields) (acc : CompAcc) :
    parseCompFields (.cons "type" (.str (componentTypeStr t)) rest) acc =
      parseCompFields rest { acc with component_type := some t } := by
  rw [parseCompFields.eq_def]
  simp only []
  rw [if_neg (by decide)]
  rw [show parseScalarField "type" (.str (componentTypeStr t)) acc =
      .ok { acc with component_type := some t } from by
    simp [parseScalarField, parseComponentType_roundtrip, exceptMap_ok]]
  rw [exceptBind_ok]


theorem pcf_width (w : Option String) (rest : JsonFields) (acc : CompAcc)
    (ha : acc.width = none) :
    parseCompFields (optField "width" (w.map Json.str) rest) acc =
      parseCompFields rest { acc with width := w } := by
  cases w with
  | none =>
    have he : ({ acc with width := none } : CompAcc) = acc := by
      cases acc; simp_all
    rw [show optField "width" (Option.map Json.str none) rest = rest from rfl,
      he]
  | some s =>
    rw [show optField "width" (Option.map Json.str (some s)) rest =
        .cons "width" (Json.str s) rest from rfl]
    rw [parseCompFields.eq_def]
    simp only []
    rw [if_neg (by decide)]
    rw [show parseScalarField "width" (Json.str s) acc =
        .ok { acc with width := some s } from by
      simp [parseScalarField, asStr, exceptMap_ok]]
    rw [exceptBind_ok]


theorem pcf_height (w : Option String) (rest : JsonFields) (acc : CompAcc)
    (ha : acc.height = none) :
    parseCompFields (optField "height" (w.map Json.str) rest) acc =
      parseCompFields rest { acc with height := w } := by
  cases w with
  | none =>
    have he : ({ acc with height := none } : CompAcc) = acc := by
      cases acc; simp_all
    rw [show optField "height" (Option.map Json.str none) rest = rest from rfl,
      he]
  | some s =>
    rw [show optField "height" (Option.map Json.str (some s)) rest =
        .cons "height" (Json.str s) rest from rfl]
    rw [parseCompFields.eq_def]
    simp only []
    rw [if_neg (by decide)]
    rw [show parseScalarField "height" (Json.str s) acc =
        .ok { acc with height := some s } from by
      simp [parseScalarField, asStr, exceptMap_ok]]
    rw [exceptBind_ok]


theorem pcf_padding (w : Option ℚ) (rest : JsonFields) (acc : CompAcc)
    (ha : acc.padding = none) :
    parseCompFields (optField "padding" (w.map Json.num) rest) acc =
      parseCompFields rest { acc with padding := w } := by
  cases w with
  | none =>
    have he : ({ acc with padding := none } : CompAcc) = acc := by
      cases acc; simp_all
    rw [show optField "padding" (Option.map Json.num none) rest = rest from rfl,
      he]
  | some s =>
    rw [show optField "padding" (Option.map Json.num (some s)) rest =
        .cons "padding" (Json.num s) rest from rfl]
    rw [parseCompFields.eq_def]
    simp only []
    rw [if_neg (by decide)]
    rw [show parseScalarField "padding" (Json.num s) acc =
        .ok { acc with padding := some s } from by
      simp [parseScalarField, asNum, exceptMap_ok]]
    rw [exceptBind_ok]


theorem pcf_margin (w : Option ℚ) (rest : JsonFields) (acc : CompAcc)
    (ha : acc.margin = none) :
    parseCompFields (optField "margin" (w.map Json.num) rest) acc =
      parseCompFields rest { acc with margin := w } := by
  cases w with
  | none =>
    have he : ({ acc with margin := none } : CompAcc) = acc := by
      cases acc; simp_all
    rw [show optField "margin" (Option.map Json.num none) rest = rest from rfl,
      he]
  | some s =>
    rw [show optField "margin" (Option.map Json.num (some s)) rest =
        .cons "margin" (Json.num s) rest from rfl]
    rw [parseCompFields.eq_def]
    simp only []
    rw [if_neg (by decide)]
    rw [show parseScalarField "margin" (Json.num s) acc =
        .ok { acc with margin := some s } from by
      simp [parseScalarField, asNum, exceptMap_ok]]
    rw [exceptBind_ok]


theorem pcf_gap (w : Option ℚ) (rest : JsonFields) (acc : CompAcc)
    (ha : acc.gap = none) :
    parseCompFields (optField "gap" (w.map Json.num) rest) acc =
      parseCompFields rest { acc with gap := w } := by
  cases w with
  | none =>
    have he : ({ acc with gap := none } : CompAcc) = acc := by
      cases acc; simp_all
    rw [show optField "gap" (Option.map Json.num none) rest = rest from rfl,
      he]
  | some s =>
    rw [show optField "gap" (Option.map Json.num (some s)) rest =
        .cons "gap" (Json.num s) rest from rfl]
    rw [parseCompFields.eq_def]
    simp only []
    rw [if_neg (by decide)]
    rw [show parseScalarField "gap" (Json.num s) acc =
        .ok { acc with gap := some s } from by
      simp [parseScalarField, asNum, exceptMap_ok]]
    rw [exceptBind_ok]


theorem pcf_justify (w : Option AlignmentValue) (rest : JsonFields) (acc : CompAcc)
    (ha : acc.justify_content = none) :
    parseCompFields (optField "justifyContent" (w.map alignmentValueJson) rest) acc =
      parseCompFields rest { acc with justify_content := w } := by
  cases w with
  | none =>
    have he : ({ acc with justify_content := none } : CompAcc) = acc := by
      cases acc; simp_all
    rw [show optField "justifyContent" (Option.map alignmentValueJson none) rest = rest from rfl,
      he]
  | some s =>
    rw [show optField "justifyContent" (Option.map alignmentValueJson (some s)) rest =
        .cons "justifyContent" (alignmentValueJson s) rest from rfl]
    rw [parseCompFields.eq_def]
    simp only []
    rw [if_neg (by decide)]
    rw [show parseScalarField "justifyContent" (alignmentValueJson s) acc =
        .ok { acc with justify_content := some s } from by
      simp [parseScalarField, parseAlignmentValue_roundtrip, exceptMap_ok]]
    rw [exceptBind_ok]


theorem pcf_align (w : Option AlignmentValue) (rest : JsonFields) (acc : CompAcc)
    (ha : acc.align_items = none) :
    parseCompFields (optField "alignItems" (w.map alignmentValueJson) rest) acc =
      parseCompFields rest { acc with align_items := w } := by
  cases w with
  | none =>
    have he : ({ acc with align_items := none } : CompAcc) = acc := by
      cases acc; simp_all
    rw [show optField "alignItems" (Option.map alignmentValueJson none) rest = rest from rfl,
      he]
  | some s =>
    rw [show optField "alignItems" (Option.map alignmentValueJson (some s)) rest =
        .cons "alignItems" (alignmentValueJson s) rest from rfl]
    rw [parseCompFields.eq_def]
    simp only []
    rw [if_neg (by decide)]
    rw [show parseScalarField "alignItems" (alignmentValueJson s) acc =
        .ok { acc with align_items := some s } from by
      simp [parseScalarField, parseAlignmentValue_roundtrip, exceptMap_ok]]
    rw [exceptBind_ok]


theorem pcf_flexGrow (w : Option U8) (rest : JsonFields) (acc : CompAcc)
    (ha : acc.flex_grow = none) :
    parseCompFields (optField "flexGrow" (w.map u8Json) rest) acc =
      parseCompFields rest { acc with flex_grow := w } := by
  cases w with
  | none =>
    have he : ({ acc with flex_grow := none } : CompAcc) = acc := by
      cases acc; simp_all
    rw [show optField "flexGrow" (Option.map u8Json none) rest = rest from rfl,
      he]
  | some s =>
    rw [show optField "flexGrow" (Option.map u8Json (some s)) rest =
        .cons "flexGrow" (u8Json s) rest from rfl]
    rw [parseCompFields.eq_def]
    simp only []
    rw [if_neg (by decide)]
    rw [show parseScalarField "flexGrow" (u8Json s) acc =
        .ok { acc with flex_grow := some s } from by
      simp [parseScalarField, asU8_u8Json, exceptMap_ok]]
    rw [exceptBind_ok]


theorem pcf_flexShrink (w : Option U8) (rest : JsonFields) (acc : CompAcc)
    (ha : acc.flex_shrink = none) :
    parseCompFields (optField "flexShrink" (w.map u8Json) rest) acc =
      parseCompFields rest { acc with flex_shrink := w } := by
  cases w with
  | none =>
    have he : ({ acc with flex_shrink := none } : CompAcc) = acc := by
      cases acc; simp_all
    rw [show optField "flexShrink" (Option.map u8Json none) rest = rest from rfl,
      he]
  | some s =>
    rw [show optField "flexShrink" (Option.map u8Json (some s)) rest =
        .cons "flexShrink" (u8Json s) rest from rfl]
    rw [parseCompFields.eq_def]
    simp only []
    rw [if_neg (by decide)]
    rw [show parseScalarField "flexShrink" (u8Json s) acc =
        .ok { acc with flex_shrink := some s } from by
      simp [parseScalarField, asU8_u8Json, exceptMap_ok]]
    rw [exceptBind_ok]


theorem pcf_background (w : Option String) (rest : JsonFields) (acc : CompAcc)
    (ha : acc.background = none) :
    parseCompFields (optField "background" (w.map Json.str) rest) acc =
      parseCompFields rest { acc with background := w } := by
  cases w with
  | none =>
    have he : ({ acc with background := none } : CompAcc) = acc := by
      cases acc; simp_all
    rw [show optField "background" (Option.map Json.str none) rest = rest from rfl,
      he]
  | some s =>
    rw [show optField "background" (Option.map Json.str (some s)) rest =
        .cons "background" (Json.str s) rest from rfl]
    rw [parseCompFields.eq_def]
    simp only []
    rw [if_neg (by decide)]
    rw [show parseScalarField "background" (Json.str s) acc =
        .ok { acc with background := some s } from by
      simp [parseScalarField, asStr, exceptMap_ok]]
    rw [exceptBind_ok]


theorem pcf_color (w : Option String) (rest : JsonFields) (acc : CompAcc)
    (ha : acc.color = none) :
    parseCompFields (optField "color" (w.map Json.str) rest) acc =
      parseCompFields rest { acc with color := w } := by
  cases w with
  | none =>
    have he : ({ acc with color := none } : CompAcc) = acc := by
      cases acc; simp_all
    rw [show optField "color" (Option.map Json.str none) rest = rest from rfl,
      he]
  | some s =>
    rw [show optField "color" (Option.map Json.str (some s)) rest =
        .cons "color" (Json.str s) rest from rfl]
    rw [parseCompFields.eq_def]
    simp only []
    rw [if_neg (by decide)]
    rw [show parseScalarField "color" (Json.str s) acc =
        .ok { acc with color := some s } from by
      simp [parseScalarField, asStr, exceptMap_ok]]
    rw [exceptBind_ok]


theorem pcf_opacity (w : Option ℚ) (rest : JsonFields) (acc : CompAcc)
    (ha : acc.opacity = none) :
    parseCompFields (optField "opacity" (w.map Json.num) rest) acc =
      parseCompFields rest { acc with opacity := w } := by
  cases w with
  | none =>
    have he : ({ acc with opacity := none } : CompAcc) = acc := by
      cases acc; simp_all
    rw [show optField "opacity" (Option.map Json.num none) rest = rest from rfl,
      he]
  | some s =>
    rw [show optField "opacity" (Option.map Json.num (some s)) rest =
        .cons "opacity" (Json.num s) rest from rfl]
    rw [parseCompFields.eq_def]
    simp only []
    rw [if_neg (by decide)]
    rw [show parseScalarField "opacity" (Json.num s) acc =
        .ok { acc with opacity := some s } from by
      simp [parseScalarField, asNum, exceptMap_ok]]
    rw [exceptBind_ok]


theorem pcf_fontSize (w : Option ℚ) (rest : JsonFields) (acc : CompAcc)
    (ha : acc.font_size = none) :
    parseCompFields (optField "fontSize" (w.map Json.num) rest) acc =
      parseCompFields rest { acc with font_size := w } := by
  cases w with
  | none =>
    have he : ({ acc with font_size := none } : CompAcc) = acc := by
      cases acc; simp_all
    rw [show optField "fontSize" (Option.map Json.num none) rest = rest from rfl,
      he]
  | some s =>
    rw [show optField "fontSize" (Option.map Json.num (some s)) rest =
        .cons "fontSize" (Json.num s) rest from rfl]
    rw [parseCompFields.eq_def]
    simp only []
    rw [if_neg (by decide)]
    rw [show parseScalarField "fontSize" (Json.num s) acc =
        .ok { acc with font_size := some s } from by
      simp [parseScalarField, asNum, exceptMap_ok]]
    rw [exceptBind_ok]


theorem pcf_content (w : Option String) (rest : JsonFields) (acc : CompAcc)
    (ha : acc.content = none) :
    parseCompFields (optField "content" (w.map Json.str) rest) acc =
      parseCompFields rest { acc with content := w } := by
  cases w with
  | none =>
    have he : ({ acc with content := none } : CompAcc) = acc := by
      cases acc; simp_all
    rw [show optField "content" (Option.map Json.str none) rest = rest from rfl,
      he]
  | some s =>
    rw [show optField "content" (Option.map Json.str (some s)) rest =
        .cons "content" (Json.str s) rest from rfl]
    rw [parseCompFields.eq_def]
    simp only []
    rw [if_neg (by decide)]
    rw [show parseScalarField "content" (Json.str s) acc =
        .ok { acc with content := some s } from by
      simp [parseScalarField, asStr, exceptMap_ok]]
    rw [exceptBind_ok]


theorem pcf_text (w : Option String) (rest : JsonFields) (acc : CompAcc)
    (ha : acc.text = none) :
    parseCompFields (optField "text" (w.map Json.str) rest) acc =
      parseCompFields rest { acc with text := w } := by
  cases w with
  | none =>
    have he : ({ acc with text := none } : CompAcc) = acc := by
      cases acc; simp_all
    rw [show optField "text" (Option.map Json.str none) rest = rest from rfl,
      he]
  | some s =>
    rw [show optField "text" (Option.map Json.str (some s)) rest =
        .cons "text" (Json.str s) rest from rfl]
    rw [parseCompFields.eq_def]
    simp only []
    rw [if_neg (by decide)]
    rw [show parseScalarField "text" (Json.str s) acc =
        .ok { acc with text := some s } from by
      simp [parseScalarField, asStr, exceptMap_ok]]
    rw [exceptBind_ok]


theorem pcf_placeholder (w : Option String) (rest : JsonFields) (acc : CompAcc)
    (ha : acc.placeholder = none) :
    parseCompFields (optField "placeholder" (w.map Json.str) rest) acc =
      parseCompFields rest { acc with placeholder := w } := by
  cases w with
  | none =>
    have he : ({ acc with placeholder := none } : CompAcc) = acc := by
      cases acc; simp_all
    rw [show optField "placeholder" (Option.map Json.str none) rest = rest from rfl,
      he]
  | some s =>
    rw [show optField "placeholder" (Option.map Json.str (some s)) rest =
        .cons "placeholder" (Json.str s) rest from rfl]
    rw [parseCompFields.eq_def]
    simp only []
    rw [if_neg (by decide)]
    rw [show parseScalarField "placeholder" (Json.str s) acc =
        .ok { acc with placeholder := some s } from by
      simp [parseScalarField, asStr, exceptMap_ok]]
    rw [exceptBind_ok]


theorem pcf_windowTitle (w : Option String) (rest : JsonFields) (acc : CompAcc)
    (ha : acc.window_title = none) :
    parseCompFields (optField "windowTitle" (w.map Json.str) rest) acc =
      parseCompFields rest { acc with window_title := w } := by
  cases w with
  | none =>
    have he : ({ acc with window_title := none } : CompAcc) = acc := by
      cases acc; simp_all
    rw [show optField "windowTitle" (Option.map Json.str none) rest = rest from rfl,
      he]
  | some s =>
    rw [show optField "windowTitle" (Option.map Json.str (some s)) rest =
        .cons "windowTitle" (Json.str s) rest from rfl]
    rw [parseCompFields.eq_def]
    simp only []
    rw [if_neg (by decide)]
    rw [show parseScalarField "windowTitle" (Json.str s) acc =
        .ok { acc with window_title := some s } from by
      simp [parseScalarField, asStr, exceptMap_ok]]
    rw [exceptBind_ok]


theorem pcf_children (xs : JsonList) (ks : IRComponentList)
    (rest : JsonFields) (acc : CompAcc)
    (hk : parseCompList xs = .ok ks) :
    parseCompFields (.cons "children" (.arr xs) rest) acc =
      parseCompFields rest { acc with children := some ks } := by
  rw [parseCompFields.eq_def]
  simp only [if_true]
  rw [hk, exceptBind_ok]

theorem optField_none (k : String) (rest : JsonFields) :
    optField k none rest = rest := rfl

theorem optField_some (k : String) (v : Json) (rest : JsonFields) :
    optField k (some v) rest = .cons k v rest := rfl

set_option maxHeartbeats 2000000

mutual

/-- Serde round trip for one component: parsing its serialization recovers
it exactly (present fields with their values, absent fields as `none`,
omitted `children` as the empty list). -/
theorem parseComp_toJsonComp : ∀ c : IRComponent,
    parseComp (toJsonComp c) = .ok c
  | .mk i ty w h pad mar g jc ai fg fsh bg col op fsz cont txt plh wt
      kids => by
    cases kids with
    | nil =>
      rw [toJsonComp, compFields.eq_1, parseComp.eq_def]
      simp only [compFieldsAux, optField_none]
      simp only [pcf_id, pcf_type, pcf_width, pcf_height, pcf_padding,
        pcf_margin, pcf_gap, pcf_justify, pcf_align, pcf_flexGrow,
        pcf_flexShrink, pcf_background, pcf_color, pcf_opacity,
        pcf_fontSize, pcf_content, pcf_text, pcf_placeholder,
        pcf_windowTitle, parseCompFields_nil]
      rw [exceptBind_ok]
      simp [buildComp]
    | cons c0 rest0 =>
      have hk := parseCompList_toJsonCompList (.cons c0 rest0)
      rw [toJsonComp,
        compFields.eq_2 i ty w h pad mar g jc ai fg fsh bg col op fsz cont
          txt plh wt (.cons c0 rest0) (by intro hc; cases hc),
        parseComp.eq_def]
      simp only [compFieldsAux, optField_some]
      simp only [pcf_id, pcf_type, pcf_width, pcf_height, pcf_padding,
        pcf_margin, pcf_gap, pcf_justify, pcf_align, pcf_flexGrow,
        pcf_flexShrink, pcf_background, pcf_color, pcf_opacity,
        pcf_fontSize, pcf_content, pcf_text, pcf_placeholder,
        pcf_windowTitle, pcf_children _ _ _ _ hk, parseCompFields_nil]
      rw [exceptBind_ok]
      simp [buildComp]

theorem parseCompList_toJsonCompList : ∀ cs : IRComponentList,
    parseCompList (toJsonCompList cs) = .ok cs
  | .nil => by
    rw [toJsonCompList.eq_def]
    simp only []
    rw [parseCompList.eq_def]
  | .cons c rest => by
    have h1 := parseComp_toJsonComp c
    rw [toJsonComp] at h1
    rw [toJsonCompList.eq_def]
    simp only []
    rw [parseCompList.eq_def]
    simp only []
    rw [h1, exceptBind_ok, parseCompList_toJsonCompList rest, exceptMap_ok]

end

set_option maxHeartbeats 200000

theorem parseStringPairs_roundtrip : ∀ ps : List (String × String),
    parseStringPairs (jsonOfStringPairs ps) = .ok ps
  | [] => rfl
  | (k, v) :: ps => by
    simp [jsonOfStringPairs, parseStringPairs, asStr,
      parseStringPairs_roundtrip ps, exceptBind_ok, exceptMap_ok]

theorem parseEventBinding_roundtrip (b : EventBinding) :
    parseEventBinding (jsonOfEventBinding b) = .ok b := by
  cases b with
  | mk c e h =>
    simp [jsonOfEventBinding, parseEventBinding, getField, asU32_u32Json,
      asStr, exceptBind_ok, exceptMap_ok]

theorem parseEventBindingList_roundtrip : ∀ bs : List EventBinding,
    parseEventBindingList (jsonOfEventBindings bs) = .ok bs
  | [] => rfl
  | b :: bs => by
    simp [jsonOfEventBindings, parseEventBindingList,
      parseEventBinding_roundtrip b, parseEventBindingList_roundtrip bs,
      exceptBind_ok, exceptMap_ok]

theorem parseLogic_roundtrip (l : Logic) :
    parseLogic (toJsonLogic l) = .ok l := by
  cases l with
  | mk fns ebs =>
    simp [toJsonLogic, parseLogic, getField, parseStringPairs_roundtrip,
      parseEventBindingList_roundtrip, exceptBind_ok, exceptMap_ok]

theorem parseReactiveVariable_roundtrip (v : ReactiveVariable) :
    parseReactiveVariable (jsonOfReactiveVariable v) = .ok v := by
  cases v with
  | mk i t j =>
    simp [jsonOfReactiveVariable, parseReactiveVariable, getField, asStr,
      exceptBind_ok, exceptMap_ok]

theorem parseReactiveVariableList_roundtrip : ∀ vs : List ReactiveVariable,
    parseReactiveVariableList (jsonOfReactiveVariables vs) = .ok vs
  | [] => rfl
  | v :: vs => by
    simp [jsonOfReactiveVariables, parseReactiveVariableList,
      parseReactiveVariable_roundtrip v,
      parseReactiveVariableList_roundtrip vs, exceptBind_ok, exceptMap_ok]

theorem parseManifest_roundtrip (m : ReactiveManifest) :
    parseManifest (toJsonManifest m) = .ok m := by
  cases m with
  | mk vs =>
    simp [toJsonManifest, parseManifest, getField,
      parseReactiveVariableList_roundtrip, exceptBind_ok, exceptMap_ok]

theorem parseCompDef_roundtrip (d : ComponentDefinition) :
    parseCompDef (jsonOfCompDef d) = .ok d := by
  cases d with
  | mk n t =>
    have ht := parseComp_toJsonComp t
    simp [jsonOfCompDef, parseCompDef, getField, asStr, ht,
      exceptBind_ok, exceptMap_ok]

theorem parseCompDefList_roundtrip : ∀ ds : List ComponentDefinition,
    parseCompDefList (jsonOfCompDefs ds) = .ok ds
  | [] => rfl
  | d :: ds => by
    simp [jsonOfCompDefs, parseCompDefList, parseCompDef_roundtrip d,
      parseCompDefList_roundtrip ds, exceptBind_ok, exceptMap_ok]

/-- Serde round trip for a whole document. -/
theorem from_json_to_json (d : IRDocument) :
    IRDocument.from_json (IRDocument.to_json d) = .ok d := by
  cases d with
  | mk ver defs root lg mf =>
    have hroot := parseComp_toJsonComp root
    cases defs with
    | nil =>
      simp [IRDocument.to_json, docFields, IRDocument.from_json, getField,
        optField, asStr, hroot, parseLogic_roundtrip,
        parseManifest_roundtrip, exceptBind_ok, exceptMap_ok]
    | cons d0 ds =>
      simp [IRDocument.to_json, docFields, IRDocument.from_json, getField,
        optField, asStr, hroot, parseLogic_roundtrip,
        parseManifest_roundtrip,
        parseCompDefList_roundtrip (d0 :: ds), exceptBind_ok, exceptMap_ok]

/-- Claim C4. Serializing an `IRDocument` to JSON and deserializing the
result yields a document equal to the original in every field that was set
(first conjunct: the full round trip at the JSON value level), and every
optional field that was absent — `none`, or an empty
`children`/`component_definitions` list — is omitted from the serialized
output (its key is not present exactly when it is absent; the remaining
conjuncts) and, by the round trip, reparses as absent rather than as a
default sentinel. -/
theorem ir_document_round_trip :
    (∀ d : IRDocument, IRDocument.from_json (IRDocument.to_json d) = .ok d)
      ∧
    (∀ c : IRComponent,
      getField (compFields c) "width" = (c.width).map Json.str ∧
      getField (compFields c) "height" = (c.height).map Json.str ∧
      getField (compFields c) "padding" = (c.padding).map Json.num ∧
      getField (compFields c) "margin" = (c.margin).map Json.num ∧
      getField (compFields c) "gap" = (c.gap).map Json.num ∧
      getField (compFields c) "justifyContent" = (c.justify_content).map alignmentValueJson ∧
      getField (compFields c) "alignItems" = (c.align_items).map alignmentValueJson ∧
      getField (compFields c) "flexGrow" = (c.flex_grow).map u8Json ∧
      getField (compFields c) "flexShrink" = (c.flex_shrink).map u8Json ∧
      getField (compFields c) "background" = (c.background).map Json.str ∧
      getField (compFields c) "color" = (c.color).map Json.str ∧
      getField (compFields c) "opacity" = (c.opacity).map Json.num ∧
      getField (compFields c) "fontSize" = (c.font_size).map Json.num ∧
      getField (compFields c) "content" = (c.content).map Json.str ∧
      getField (compFields c) "text" = (c.text).map Json.str ∧
      getField (compFields c) "placeholder" = (c.placeholder).map Json.str ∧
      getField (compFields c) "windowTitle" = (c.window_title).map Json.str ∧
      getField (compFields c) "children" =
        (match c.children with
         | .nil => none
         | ks => some (.arr (toJsonCompList ks)))) ∧
    (∀ d : IRDocument,
      getField (docFields d) "component_definitions" =
        (match d.component_definitions with
         | [] => none
         | ds => some (.arr (jsonOfCompDefs ds)))) := by
  refine ⟨from_json_to_json, ?_, ?_⟩
  · intro c
    cases c with
    | mk i ty w h pad mar g jc ai fg fsh bg col op fsz cont txt plh wt
        kids =>
      cases kids with
      | nil =>
        rw [compFields.eq_1]
        simp only [compFieldsAux, IRComponent.width, IRComponent.height, IRComponent.padding, IRComponent.margin, IRComponent.gap, IRComponent.justify_content, IRComponent.align_items, IRComponent.flex_grow, IRComponent.flex_shrink, IRComponent.background, IRComponent.color, IRComponent.opacity, IRComponent.font_size, IRComponent.content, IRComponent.text, IRComponent.placeholder, IRComponent.window_title, IRComponent.children]
        refine ⟨?_, ?_, ?_, ?_, ?_, ?_, ?_, ?_, ?_, ?_, ?_, ?_, ?_, ?_, ?_, ?_, ?_, ?_⟩
        · cases w <;>
            simp [getField, getField_optField_other, optField_none,
            optField_some]
        · cases h <;>
            simp [getField, getField_optField_other, optField_none,
              optField_some]
        · cases pad <;>
            simp [getField, getField_optField_other, optField_none,
              optField_some]
        · cases mar <;>
            simp [getField, getField_optField_other, optField_none,
              optField_some]
        · cases g <;>
            simp [getField, getField_optField_other, optField_none,
              optField_some]
        · cases jc <;>
            simp [getField, getField_optField_other, optField_none,
              optField_some]
        · cases ai <;>
            simp [getField, getField_optField_other, optField_none,
              optField_some]
        · cases fg <;>
            simp [getField, getField_optField_other, optField_none,
              optField_some]
        · cases fsh <;>
            simp [getField, getField_optField_other, optField_none,
              optField_some]
        · cases bg <;>
            simp [getField, getField_optField_other, optField_none,
              optField_some]
        · cases col <;>
            simp [getField, getField_optField_other, optField_none,
              optField_some]
        · cases op <;>
            simp [getField, getField_optField_other, optField_none,
              optField_some]
        · cases fsz <;>
            simp [getField, getField_optField_other, optField_none,
              optField_some]
        · cases cont <;>
            simp [getField, getField_optField_other, optField_none,
              optField_some]
        · cases txt <;>
            simp [getField, getField_optField_other, optField_none,
              optField_some]
        · cases plh <;>
            simp [getField, getField_optField_other, optField_none,
              optField_some]
        · cases wt <;>
            simp [getField, getField_optField_other, optField_none,
              optField_some]
        · simp [getField, getField_optField_other, optField_none]
      | cons c0 rest0 =>
        rw [compFields.eq_2 i ty w h pad mar g jc ai fg fsh bg col op fsz
          cont txt plh wt (.cons c0 rest0) (by intro hc; cases hc)]
        simp only [compFieldsAux, IRComponent.width, IRComponent.height, IRComponent.padding, IRComponent.margin, IRComponent.gap, IRComponent.justify_content, IRComponent.align_items, IRComponent.flex_grow, IRComponent.flex_shrink, IRComponent.background, IRComponent.color, IRComponent.opacity, IRComponent.font_size, IRComponent.content, IRComponent.text, IRComponent.placeholder, IRComponent.window_title, IRComponent.children]
        refine ⟨?_, ?_, ?_, ?_, ?_, ?_, ?_, ?_, ?_, ?_, ?_, ?_, ?_, ?_, ?_, ?_, ?_, ?_⟩
        · cases w <;>
            simp [getField, getField_optField_other, optField_none,
            optField_some]
        · cases h <;>
            simp [getField, getField_optField_other, optField_none,
              optField_some]
        · cases pad <;>
            simp [getField, getField_optField_other, optField_none,
              optField_some]
        · cases mar <;>
            simp [getField, getField_optField_other, optField_none,
              optField_some]
        · cases g <;>
            simp [getField, getField_optField_other, optField_none,
              optField_some]
        · cases jc <;>
            simp [getField, getField_optField_other, optField_none,
              optField_some]
        · cases ai <;>
            simp [getField, getField_optField_other, optField_none,
              optField_some]
        · cases fg <;>
            simp [getField, getField_optField_other, optField_none,
              optField_some]
        · cases fsh <;>
            simp [getField, getField_optField_other, optField_none,
              optField_some]
        · cases bg <;>
            simp [getField, getField_optField_other, optField_none,
              optField_some]
        · cases col <;>
            simp [getField, getField_optField_other, optField_none,
              optField_some]
        · cases op <;>
            simp [getField, getField_optField_other, optField_none,
              optField_some]
        · cases fsz <;>
            simp [getField, getField_optField_other, optField_none,
              optField_some]
        · cases cont <;>
            simp [getField, getField_optField_other, optField_none,
              optField_some]
        · cases txt <;>
            simp [getField, getField_optField_other, optField_none,
              optField_some]
        · cases plh <;>
            simp [getField, getField_optField_other, optField_none,
              optField_some]
        · cases wt <;>
            simp [getField, getField_optField_other, optField_none,
              optField_some]
        · simp [getField, getField_optField_other, optField_some]
  · intro d
    cases d with
    | mk ver defs root lg mf =>
      cases defs with
      | nil =>
        simp [docFields, getField, getField_optField_other, optField_none]
      | cons d0 ds =>
        simp [docFields, getField, getField_optField_other, optField_some]

/-! ## C2: the property-vs-child dispatch -/

/-- Claim C2, evaluated at the failing input. The claim says an entry that
is not an identifier-followed-by-colon and not an identifier-followed-by-
brace is captured as an opaque expression child.  For the body entry
`::helper::make()` the dispatch the spec describes (`specParseEntries`,
the shadowed `Peek2` helper trait's semantics) indeed captures it as one
opaque expression child; but the compiled dispatch (`parseEntries`, syn's
inherent `ParseBuffer::peek2`, which only looks at the second token)
commits to `Property::parse` because the second token is a colon, and the
parse fails at `::` with "expected identifier". -/
theorem parse_entries_global_path_divergence :
    parseEntries 9 globalPathEntry = .error "expected identifier" ∧
    specParseEntries 9 globalPathEntry =
      .ok ([], .consExpr globalPathEntry .nil) :=
  ⟨rfl, rfl⟩
